import Mathlib

/-!
# FTP-go: configuration-driven transfer orchestration

A shallow embedding of `main.go`: the `Config` data model, `selectProtocol`,
`ftpProtocol` and `sftpProtocol`.  The FTP, SSH, SFTP and `os`/`io` libraries are
collaborators: every call the program makes to them is answered by a `Collab`
value threaded through an explicit world state, and every call (with the error
it returned) as well as every line written to standard output is appended to a
log, in program order.  Go's `defer` is modelled by a stack of pending calls that
is run last-in-first-out when the handler returns.
-/

namespace FTPgo

/-! ## Data model (`type Config struct`) -/

/-- The text of a Go `error` value (what `err.Error()` returns). -/
abbrev Err := String

/-- File contents. -/
abbrev Bytes := List UInt8

/-- An element of `Config.FilesToUpload`. -/
structure UploadJob where
  LocalPath : String
  RemotePath : String
  DeleteLocalFileAfterUpload : Bool
  deriving DecidableEq, Repr

/-- An element of `Config.FilesToDownload`. -/
structure DownloadJob where
  LocalPath : String
  RemotePath : String
  DeleteRemoteFileAfterDownload : Bool
  deriving DecidableEq, Repr

/-- The configuration, `type Config struct` of `main.go`. -/
structure Config where
  User : String
  Password : String
  Server : String
  Port : Int
  Protocol : String
  IgnoreHostKey : Bool
  FilesToUpload : List UploadJob
  FilesToDownload : List DownloadJob
  deriving DecidableEq, Repr

/-! ## Collaborator calls -/

/-- A value handed out by a collaborator: the FTP `Retr` response, an `*os.File`
or an `*sftp.File`.  The number is chosen by the collaborator. -/
inductive Handle where
  | ftpResp (id : Nat)
  | osFile (id : Nat)
  | sftpFile (id : Nat)
  deriving DecidableEq, Repr

/-- The `tls.Config` literal passed to `ftp.DialWithExplicitTLS`. -/
structure TlsConfig where
  ServerName : String
  SessionTicketsDisabled : Bool
  /-- Capacity given to `tls.NewLRUClientSessionCache`. -/
  ClientSessionCache : Nat
  deriving DecidableEq, Repr

/-- The value of `ssh.ClientConfig.HostKeyCallback`. -/
inductive HostKeyCallback where
  | insecureIgnoreHostKey
  deriving DecidableEq, Repr

/-- The `ssh.ClientConfig` literal built by `sftpProtocol`. -/
structure SshClientConfig where
  User : String
  /-- The single element of `Auth`: `ssh.Password(config.Password)`. -/
  AuthPassword : String
  HostKeyCallback : HostKeyCallback
  deriving DecidableEq, Repr

/-- Everything the program does to the outside: one constructor per library
function it calls, carrying the arguments of the call, and `print` for a write to
standard output. -/
inductive Op where
  | print (text : String)
  | ftpDial (addr : String) (timeoutSeconds : Nat) (tls : TlsConfig)
  | ftpLogin (user password : String)
  | ftpRetr (path : String)
  | ioReadAll (src : Handle)
  | osWriteFile (path : String) (data : Bytes) (perm : Nat)
  | ftpDelete (path : String)
  | osOpen (path : String)
  | ftpStor (path : String) (src : Handle)
  | osRemove (path : String)
  | ftpQuit
  | sshDial (network addr : String) (cfg : SshClientConfig)
  | sftpNewClient
  | sftpOpen (path : String)
  | osCreate (path : String)
  | ioCopy (dst src : Handle)
  | sftpRemove (path : String)
  | sftpCreate (path : String)
  | fileClose (h : Handle)
  | sftpClientClose
  | sshClose
  deriving DecidableEq, Repr

/-- One entry of the log: the call and the error it returned (`none` for `nil`). -/
structure Event where
  op : Op
  err : Option Err
  deriving DecidableEq, Repr

/-- The behaviour of the libraries, over a world state `σ`.  `call` answers the
functions that return only an `error`, `acquire` those that return a handle and
an `error`, `read` answers `io.ReadAll`. -/
structure Collab (σ : Type) where
  call : Op → σ → Option Err × σ
  acquire : Op → σ → Except Err Nat × σ
  read : Op → σ → Except Err Bytes × σ

/-- The outcome of running a piece of the program: the value or the error it
returned, the world it left, the log it produced and the calls it deferred (in
the order the `defer` statements ran). -/
structure Res (σ α : Type) where
  val : Except Err α
  world : σ
  log : List Event
  defers : List Op

/-- The Go `error` result: `nil` is `none`. -/
def Res.err {σ α : Type} (r : Res σ α) : Option Err :=
  match r.val with
  | .error e => some e
  | .ok _ => none

/-- Sequencing with `if err != nil { return err }` after `m`. -/
def step {σ α β : Type} (m : σ → Res σ α) (k : α → σ → Res σ β) (w : σ) : Res σ β :=
  match (m w).val with
  | .error e => ⟨.error e, (m w).world, (m w).log, (m w).defers⟩
  | .ok a => ⟨(k a (m w).world).val, (k a (m w).world).world,
      (m w).log ++ (k a (m w).world).log, (m w).defers ++ (k a (m w).world).defers⟩

/-- Falling through with no error. -/
def done {σ : Type} (w : σ) : Res σ Unit := ⟨.ok (), w, [], []⟩

/-- A call returning only an `error`. -/
def call {σ : Type} (C : Collab σ) (op : Op) (w : σ) : Res σ Unit :=
  match C.call op w with
  | (some e, w1) => ⟨.error e, w1, [⟨op, some e⟩], []⟩
  | (none, w1) => ⟨.ok (), w1, [⟨op, none⟩], []⟩

/-- A call returning a handle and an `error`. -/
def acquire {σ : Type} (C : Collab σ) (op : Op) (w : σ) : Res σ Nat :=
  match C.acquire op w with
  | (.error e, w1) => ⟨.error e, w1, [⟨op, some e⟩], []⟩
  | (.ok h, w1) => ⟨.ok h, w1, [⟨op, none⟩], []⟩

/-- The call `io.ReadAll(src)`. -/
def readAll {σ : Type} (C : Collab σ) (src : Handle) (w : σ) : Res σ Bytes :=
  match C.read (.ioReadAll src) w with
  | (.error e, w1) => ⟨.error e, w1, [⟨.ioReadAll src, some e⟩], []⟩
  | (.ok b, w1) => ⟨.ok b, w1, [⟨.ioReadAll src, none⟩], []⟩

/-- The statements `fmt.Println` and `fmt.Printf`: `text` is what reaches standard output. -/
def print {σ : Type} (text : String) (w : σ) : Res σ Unit :=
  ⟨.ok (), w, [⟨.print text, none⟩], []⟩

/-- The statement `defer op`. -/
def defer {σ : Type} (op : Op) (w : σ) : Res σ Unit := ⟨.ok (), w, [], [op]⟩

/-- The pattern `if err != nil { fmt.Printf(msg, err); return err }` around `m`. -/
def reported {σ α : Type} (msg : Err → String) (m : σ → Res σ α) (w : σ) : Res σ α :=
  match (m w).val with
  | .error e => ⟨.error e, (m w).world, (m w).log ++ [⟨.print (msg e), none⟩], (m w).defers⟩
  | .ok a => ⟨.ok a, (m w).world, (m w).log, (m w).defers⟩

/-- Runs pending calls, first of the list first; what they return is discarded. -/
def runCalls {σ : Type} (C : Collab σ) : List Op → σ → σ × List Event
  | [], w => (w, [])
  | op :: ops, w =>
    ((runCalls C ops (C.call op w).2).1, ⟨op, (C.call op w).1⟩ :: (runCalls C ops (C.call op w).2).2)

/-- Function return: the deferred calls run, last deferred first. -/
def finish {σ α : Type} (C : Collab σ) (r : Res σ α) : Res σ α :=
  ⟨r.val, (runCalls C r.defers.reverse r.world).1,
    r.log ++ (runCalls C r.defers.reverse r.world).2, []⟩

/-- A `for _, j := range jobs` loop whose body returns on the first error. -/
def runJobs {σ α : Type} (job : α → σ → Res σ Unit) : List α → σ → Res σ Unit
  | [], w => done w
  | j :: js, w => step (job j) (fun _ => runJobs job js) w

/-! ## `ftpProtocol` -/

/-- The address `fmt.Sprintf("%s:%d", config.Server, config.Port)`. -/
def dialAddr (config : Config) : String :=
  config.Server ++ ":" ++ toString config.Port

/-- The call `ftp.Dial(addr, DialWithTimeout(5*time.Second), DialWithExplicitTLS(...))`. -/
def ftpDialOp (config : Config) : Op :=
  .ftpDial (dialAddr config) 5 ⟨config.Server, false, 0⟩

/-- Body of the loop over `config.FilesToDownload` in `ftpProtocol`. -/
def ftpDownload {σ : Type} (C : Collab σ) (download : DownloadJob) : σ → Res σ Unit :=
  step (acquire C (.ftpRetr download.RemotePath)) fun resp =>
  step (readAll C (.ftpResp resp)) fun b =>
  step (call C (.osWriteFile download.LocalPath b 0o600)) fun _ =>
  if download.DeleteRemoteFileAfterDownload then
    call C (.ftpDelete download.RemotePath)
  else done

/-- Body of the loop over `config.FilesToUpload` in `ftpProtocol`. -/
def ftpUpload {σ : Type} (C : Collab σ) (upload : UploadJob) : σ → Res σ Unit :=
  step (acquire C (.osOpen upload.LocalPath)) fun r =>
  step (call C (.ftpStor upload.RemotePath (.osFile r))) fun _ =>
  if upload.DeleteLocalFileAfterUpload then
    call C (.osRemove upload.LocalPath)
  else done

/-- The two loops of `ftpProtocol`. -/
def ftpJobs {σ : Type} (C : Collab σ) (config : Config) : σ → Res σ Unit :=
  step (runJobs (ftpDownload C) config.FilesToDownload) fun _ =>
  runJobs (ftpUpload C) config.FilesToUpload

/-- The head of `ftpProtocol`: dial, `defer conn.Quit()`, login. -/
def ftpConnect {σ : Type} (C : Collab σ) (config : Config) : σ → Res σ Unit :=
  step (print "Connecting to FTP server\n") fun _ =>
  step (call C (ftpDialOp config)) fun _ =>
  step (defer .ftpQuit) fun _ =>
  call C (.ftpLogin config.User config.Password)

/-- The function `ftpProtocol` before its deferred calls run. -/
def ftpBody {σ : Type} (C : Collab σ) (config : Config) : σ → Res σ Unit :=
  step (ftpConnect C config) fun _ => ftpJobs C config

/-- The function `ftpProtocol`. -/
def ftpProtocol {σ : Type} (C : Collab σ) (config : Config) (w : σ) : Res σ Unit :=
  finish C (ftpBody C config w)

/-! ## `sftpProtocol` -/

/-- The `sshConfig` literal of `sftpProtocol`. -/
def sshConfig (config : Config) : SshClientConfig :=
  ⟨config.User, config.Password, .insecureIgnoreHostKey⟩

/-- The call `ssh.Dial("tcp", addr, sshConfig)`. -/
def sshDialOp (config : Config) : Op :=
  .sshDial "tcp" (dialAddr config) (sshConfig config)

/-- Body of the loop over `config.FilesToDownload` in `sftpProtocol`. -/
def sftpDownload {σ : Type} (C : Collab σ) (download : DownloadJob) : σ → Res σ Unit :=
  step (reported (fun e => "Error opening remote file : " ++ e ++ " \n")
    (acquire C (.sftpOpen download.RemotePath))) fun remoteFile =>
  step (defer (.fileClose (.sftpFile remoteFile))) fun _ =>
  step (reported (fun e => "Error creating a local file: " ++ e ++ "\n")
    (acquire C (.osCreate download.LocalPath))) fun localFile =>
  step (defer (.fileClose (.osFile localFile))) fun _ =>
  step (reported (fun e => "Error copying data: " ++ e ++ "\n")
    (call C (.ioCopy (.osFile localFile) (.sftpFile remoteFile)))) fun _ =>
  if download.DeleteRemoteFileAfterDownload then
    reported (fun e => "Error deleting remote file: " ++ e ++ "\n")
      (call C (.sftpRemove download.RemotePath))
  else done

/-- Body of the loop over `config.FilesToUpload` in `sftpProtocol`. -/
def sftpUpload {σ : Type} (C : Collab σ) (upload : UploadJob) : σ → Res σ Unit :=
  step (reported (fun e => "Error opening local file: " ++ e ++ " \n")
    (acquire C (.osOpen upload.LocalPath))) fun localFile =>
  step (defer (.fileClose (.osFile localFile))) fun _ =>
  step (reported (fun e => "Error creating remote file: " ++ e ++ "\n")
    (acquire C (.sftpCreate upload.RemotePath))) fun remoteFile =>
  step (defer (.fileClose (.sftpFile remoteFile))) fun _ =>
  step (reported (fun e => "Error copying data: " ++ e ++ "\n")
    (call C (.ioCopy (.sftpFile remoteFile) (.osFile localFile)))) fun _ =>
  if upload.DeleteLocalFileAfterUpload then
    reported (fun e => "Error deleting local file: " ++ e ++ "\n")
      (call C (.osRemove upload.LocalPath))
  else done

/-- The two loops of `sftpProtocol`. -/
def sftpJobs {σ : Type} (C : Collab σ) (config : Config) : σ → Res σ Unit :=
  step (runJobs (sftpDownload C) config.FilesToDownload) fun _ =>
  runJobs (sftpUpload C) config.FilesToUpload

/-- The head of `sftpProtocol`: dial, `defer conn.Close()`, new client,
`defer client.Close()`. -/
def sftpConnect {σ : Type} (C : Collab σ) (config : Config) : σ → Res σ Unit :=
  step (call C (sshDialOp config)) fun _ =>
  step (defer .sshClose) fun _ =>
  step (call C .sftpNewClient) fun _ =>
  defer .sftpClientClose

/-- The function `sftpProtocol` before its deferred calls run. -/
def sftpBody {σ : Type} (C : Collab σ) (config : Config) : σ → Res σ Unit :=
  step (sftpConnect C config) fun _ => sftpJobs C config

/-- The function `sftpProtocol`. -/
def sftpProtocol {σ : Type} (C : Collab σ) (config : Config) (w : σ) : Res σ Unit :=
  finish C (sftpBody C config w)

/-! ## `selectProtocol` -/

/-- The function `selectProtocol`: a `switch` on the exact `Protocol` string. -/
def selectProtocol {σ : Type} (C : Collab σ) (f : Config) (w : σ) : Res σ Unit :=
  if f.Protocol = "ftp" then
    step (print "In FTP mode\n") (fun _ => ftpProtocol C f) w
  else if f.Protocol = "sftp" then
    step (print "In SFTP mode\n") (fun _ => sftpProtocol C f) w
  else
    ⟨.error "Invalid protocol, protocol should be ftp or sftp", w, [], []⟩

/-! ## Reading the log -/

/-- A write to standard output. -/
def Op.isPrint : Op → Bool
  | .print _ => true
  | _ => false

/-- Closing a session or a handle. -/
def Op.isClose : Op → Bool
  | .ftpQuit => true
  | .fileClose _ => true
  | .sftpClientClose => true
  | .sshClose => true
  | _ => false

/-- Closing a file handle or a data stream. -/
def Op.isFileClose : Op → Bool
  | .fileClose _ => true
  | _ => false

/-- A step of a transfer job: retrieve, open, create, read, write, copy, store or delete. -/
def Op.isTransfer : Op → Bool
  | .ftpRetr _ => true
  | .ioReadAll _ => true
  | .osWriteFile _ _ _ => true
  | .ftpDelete _ => true
  | .osOpen _ => true
  | .ftpStor _ _ => true
  | .osRemove _ => true
  | .sftpOpen _ => true
  | .osCreate _ => true
  | .ioCopy _ _ => true
  | .sftpRemove _ => true
  | .sftpCreate _ => true
  | _ => false

/-- Opening a connection or authenticating. -/
def Op.isConnect : Op → Bool
  | .ftpDial _ _ _ => true
  | .ftpLogin _ _ => true
  | .sshDial _ _ _ => true
  | .sftpNewClient => true
  | _ => false

/-! ## A scripted collaborator -/

/-- The collaborator that fails exactly the calls chosen by `fails`.  Its world
counts the calls answered; a handle is the count at the time of the call and
`io.ReadAll` yields no bytes. -/
def scripted (fails : Op → Option Err) : Collab Nat where
  call op n := (fails op, n + 1)
  acquire op n := (match fails op with | some e => .error e | none => .ok n, n + 1)
  read op n := (match fails op with | some e => .error e | none => .ok [], n + 1)

/-- The collaborator on which every call succeeds. -/
def allOk : Collab Nat := scripted fun _ => none

/-- Removing a file: `conn.Delete`, `client.Remove` or `os.Remove`. -/
def Op.isDelete : Op → Bool
  | .ftpDelete _ => true
  | .sftpRemove _ => true
  | .osRemove _ => true
  | _ => false

/-- The call with the collaborator-chosen parts (handle numbers, bytes read) blanked. -/
def Op.shape : Op → Op
  | .ioReadAll (.ftpResp _) => .ioReadAll (.ftpResp 0)
  | .ioReadAll (.osFile _) => .ioReadAll (.osFile 0)
  | .ioReadAll (.sftpFile _) => .ioReadAll (.sftpFile 0)
  | .osWriteFile path _ perm => .osWriteFile path [] perm
  | .ftpStor path (.ftpResp _) => .ftpStor path (.ftpResp 0)
  | .ftpStor path (.osFile _) => .ftpStor path (.osFile 0)
  | .ftpStor path (.sftpFile _) => .ftpStor path (.sftpFile 0)
  | .ioCopy (.osFile _) (.sftpFile _) => .ioCopy (.osFile 0) (.sftpFile 0)
  | .ioCopy (.sftpFile _) (.osFile _) => .ioCopy (.sftpFile 0) (.osFile 0)
  | op => op

/-- The transfer operations of a log, in order, with handle numbers and data blanked. -/
def transfers (log : List Event) : List Op :=
  ((log.map Event.op).filter Op.isTransfer).map Op.shape

/-- The lines written to standard output, in order. -/
def printed (log : List Event) : List String :=
  log.filterMap fun x => match x.op with
    | .print text => some text
    | _ => none

/-! ## What the specification expects of a run -/

/-- The operations of one FTP download job, as the specification lists them:
retrieve, read into memory, write with mode 0600, delete if requested. -/
def ftpDownloadPlan (d : DownloadJob) : List Op :=
  [.ftpRetr d.RemotePath, .ioReadAll (.ftpResp 0), .osWriteFile d.LocalPath [] 0o600] ++
    (if d.DeleteRemoteFileAfterDownload then [.ftpDelete d.RemotePath] else [])

/-- The operations of one FTP upload job: open, store, remove if requested. -/
def ftpUploadPlan (u : UploadJob) : List Op :=
  [.osOpen u.LocalPath, .ftpStor u.RemotePath (.osFile 0)] ++
    (if u.DeleteLocalFileAfterUpload then [.osRemove u.LocalPath] else [])

/-- The operations of one SFTP download job: open remote, create local, copy,
delete remote if requested. -/
def sftpDownloadPlan (d : DownloadJob) : List Op :=
  [.sftpOpen d.RemotePath, .osCreate d.LocalPath, .ioCopy (.osFile 0) (.sftpFile 0)] ++
    (if d.DeleteRemoteFileAfterDownload then [.sftpRemove d.RemotePath] else [])

/-- The operations of one SFTP upload job: open local, create remote, copy,
delete local if requested. -/
def sftpUploadPlan (u : UploadJob) : List Op :=
  [.osOpen u.LocalPath, .sftpCreate u.RemotePath, .ioCopy (.sftpFile 0) (.osFile 0)] ++
    (if u.DeleteLocalFileAfterUpload then [.osRemove u.LocalPath] else [])

/-- Downloads in list order, then uploads in list order, each job once. -/
def ftpPlan (config : Config) : List Op :=
  (config.FilesToDownload.map ftpDownloadPlan).flatten ++
    (config.FilesToUpload.map ftpUploadPlan).flatten

/-- Downloads in list order, then uploads in list order, each job once. -/
def sftpPlan (config : Config) : List Op :=
  (config.FilesToDownload.map sftpDownloadPlan).flatten ++
    (config.FilesToUpload.map sftpUploadPlan).flatten

/-- The steps of a download job that the specification names. -/
inductive DownloadStep where
  | openRemote
  | createLocal
  | copy
  | deleteRemote
  deriving DecidableEq, Repr

/-- The step of a download job a call belongs to: open/retrieve remote,
create/write local, copy/read, delete remote. -/
def Op.downloadStep : Op → Option DownloadStep
  | .ftpRetr _ => some .openRemote
  | .sftpOpen _ => some .openRemote
  | .osWriteFile _ _ _ => some .createLocal
  | .osCreate _ => some .createLocal
  | .ioReadAll _ => some .copy
  | .ioCopy _ _ => some .copy
  | .ftpDelete _ => some .deleteRemote
  | .sftpRemove _ => some .deleteRemote
  | _ => none

/-- The line `sftpProtocol` prints when a step of a download job fails with `e`. -/
def sftpDownloadMsg : DownloadStep → Err → String
  | .openRemote, e => "Error opening remote file : " ++ e ++ " \n"
  | .createLocal, e => "Error creating a local file: " ++ e ++ "\n"
  | .copy, e => "Error copying data: " ++ e ++ "\n"
  | .deleteRemote, e => "Error deleting remote file: " ++ e ++ "\n"

/-- The first failing call of a log, with the error it returned. -/
def firstFailure (log : List Event) : Option Event :=
  log.find? fun x => x.err.isSome

/-- In the run of `ftpProtocol`, connecting succeeds, download jobs `0 .. N-1`
return no error and download job `N` returns the error `e`. -/
def FtpFailsInDownload {σ : Type} (C : Collab σ) (config : Config) (w : σ) (N : Nat)
    (e : Err) : Prop :=
  (ftpConnect C config w).err = none ∧
  (runJobs (ftpDownload C) (config.FilesToDownload.take N) (ftpConnect C config w).world).err
    = none ∧
  ∃ j, config.FilesToDownload[N]? = some j ∧
    (ftpDownload C j (runJobs (ftpDownload C) (config.FilesToDownload.take N)
      (ftpConnect C config w).world).world).err = some e

/-- In the run of `sftpProtocol`, connecting succeeds, download jobs `0 .. N-1`
return no error and download job `N` returns the error `e`. -/
def SftpFailsInDownload {σ : Type} (C : Collab σ) (config : Config) (w : σ) (N : Nat)
    (e : Err) : Prop :=
  (sftpConnect C config w).err = none ∧
  (runJobs (sftpDownload C) (config.FilesToDownload.take N) (sftpConnect C config w).world).err
    = none ∧
  ∃ j, config.FilesToDownload[N]? = some j ∧
    (sftpDownload C j (runJobs (sftpDownload C) (config.FilesToDownload.take N)
      (sftpConnect C config w).world).world).err = some e

/-! ## The remote and local stores as maps from path to bytes -/

/-- A store: the bytes at each path, `none` where no file exists. -/
abbrev Store := String → Option Bytes

/-- The store with the entry at `path` replaced. -/
def Store.set (s : Store) (path : String) (v : Option Bytes) : Store :=
  fun q => if q = path then v else s q

/-- What an open handle refers to. -/
inductive Target where
  | remote (path : String)
  | disk (path : String)
  deriving DecidableEq, Repr

/-- The world of the store model: the files on the server, the files on the
local disk, and the handles given out so far (a handle is its position). -/
structure Stores where
  remote : Store
  disk : Store
  handles : List Target

/-- Opening an existing file of the server. -/
def Stores.openRemote (s : Stores) (path : String) : Except Err Nat × Stores :=
  if (s.remote path).isSome then
    (.ok s.handles.length, { s with handles := s.handles ++ [.remote path] })
  else (.error ("remote file does not exist: " ++ path), s)

/-- Opening an existing file of the local disk. -/
def Stores.openDisk (s : Stores) (path : String) : Except Err Nat × Stores :=
  if (s.disk path).isSome then
    (.ok s.handles.length, { s with handles := s.handles ++ [.disk path] })
  else (.error ("local file does not exist: " ++ path), s)

/-- The bytes behind a handle. -/
def Stores.content (s : Stores) (h : Nat) : Option Bytes :=
  match s.handles[h]? with
  | some (.remote path) => s.remote path
  | some (.disk path) => s.disk path
  | none => none

/-- Removing a file of the server. -/
def Stores.removeRemote (s : Stores) (path : String) : Option Err × Stores :=
  if (s.remote path).isSome then (none, { s with remote := s.remote.set path none })
  else (some ("remote file does not exist: " ++ path), s)

/-- Removing a file of the local disk. -/
def Stores.removeDisk (s : Stores) (path : String) : Option Err × Stores :=
  if (s.disk path).isSome then (none, { s with disk := s.disk.set path none })
  else (some ("local file does not exist: " ++ path), s)

/-- The collaborators over the stores: connecting and closing always succeed and
touch no file; opening, reading and removing fail on a file that does not exist;
creating truncates; storing and copying replace the destination with the bytes of
the source. -/
def storeCollab : Collab Stores where
  call op s :=
    match op with
    | .osWriteFile path data _ => (none, { s with disk := s.disk.set path (some data) })
    | .ftpDelete path => s.removeRemote path
    | .sftpRemove path => s.removeRemote path
    | .osRemove path => s.removeDisk path
    | .ftpStor path (.osFile h) =>
      match s.handles[h]? with
      | some (.disk src) =>
        match s.disk src with
        | some b => (none, { s with remote := s.remote.set path (some b) })
        | none => (some "read from a removed file", s)
      | _ => (some "bad handle", s)
    | .ioCopy (.osFile d) (.sftpFile r) =>
      match s.handles[d]?, s.handles[r]? with
      | some (.disk dst), some (.remote src) =>
        match s.remote src with
        | some b => (none, { s with disk := s.disk.set dst (some b) })
        | none => (some "read from a removed file", s)
      | _, _ => (some "bad handle", s)
    | .ioCopy (.sftpFile r) (.osFile l) =>
      match s.handles[r]?, s.handles[l]? with
      | some (.remote dst), some (.disk src) =>
        match s.disk src with
        | some b => (none, { s with remote := s.remote.set dst (some b) })
        | none => (some "read from a removed file", s)
      | _, _ => (some "bad handle", s)
    | .ftpStor _ _ => (some "bad handle", s)
    | .ioCopy _ _ => (some "bad handle", s)
    | _ => (none, s)
  acquire op s :=
    match op with
    | .ftpRetr path => s.openRemote path
    | .sftpOpen path => s.openRemote path
    | .osOpen path => s.openDisk path
    | .osCreate path =>
      (.ok s.handles.length,
        { s with disk := s.disk.set path (some []), handles := s.handles ++ [.disk path] })
    | .sftpCreate path =>
      (.ok s.handles.length,
        { s with remote := s.remote.set path (some []), handles := s.handles ++ [.remote path] })
    | _ => (.error "not a handle", s)
  read op s :=
    match op with
    | .ioReadAll (.ftpResp h) =>
      match s.handles[h]? with
      | some (.remote src) =>
        match s.remote src with
        | some b => (.ok b, s)
        | none => (.error "read from a removed file", s)
      | _ => (.error "bad handle", s)
    | _ => (.error "bad handle", s)

/-- A store holding the listed files. -/
def Store.ofList (files : List (String × Bytes)) : Store :=
  fun q => (files.find? fun f => f.1 = q).map Prod.snd

/-- What the body of each of the four job loops satisfies.  A body that returns
no error logged only successful transfer calls; a body that returns `e` logged
successful transfer calls, then the transfer call that returned `e`, then nothing
but output; and a body defers only closes of file handles. -/
structure JobLaws {σ α : Type} (job : α → σ → Res σ Unit) : Prop where
  ok_log : ∀ j w, (job j w).val = .ok () →
    ∀ x ∈ (job j w).log, x.err = none ∧ x.op.isTransfer = true
  fail_log : ∀ j w e, (job j w).val = .error e →
    ∃ pre op tail, (job j w).log = pre ++ ⟨op, some e⟩ :: tail ∧
      (∀ x ∈ pre, x.err = none ∧ x.op.isTransfer = true) ∧ op.isTransfer = true ∧
      (∀ x ∈ tail, x.op.isPrint = true)
  defers_close : ∀ j w, ∀ op ∈ (job j w).defers, op.isFileClose = true

/-- The log continues `before` with successful calls, then holds a transfer call
that returned `e`, and after that call holds nothing but closes and output: no
transfer call and no connection attempt. -/
def StopsAt (log before : List Event) (e : Err) : Prop :=
  ∃ pre op post, log = (before ++ pre) ++ ⟨op, some e⟩ :: post ∧
    (∀ x ∈ before ++ pre, x.err = none) ∧ op.isTransfer = true ∧
    ∀ x ∈ post, x.op.isTransfer = false ∧ x.op.isConnect = false ∧
      (x.op.isClose = true ∨ x.op.isPrint = true)

/-- What a download job that returned no error did to the stores: the remote file
existed, the local path now holds its bytes, and the remote file is gone exactly
when the job asked for its deletion; every other path is as before. -/
def DownloadEffect (j : DownloadJob) (s t : Stores) : Prop :=
  ∃ b, s.remote j.RemotePath = some b ∧
    (∀ p, t.disk p = if p = j.LocalPath then some b else s.disk p) ∧
    (∀ p, t.remote p =
      if j.DeleteRemoteFileAfterDownload = true ∧ p = j.RemotePath then none else s.remote p)

/-- What an upload job that returned no error did to the stores: the local file
existed, the remote path now holds its bytes, and the local file is gone exactly
when the job asked for its deletion; every other path is as before. -/
def UploadEffect (u : UploadJob) (s t : Stores) : Prop :=
  ∃ b, s.disk u.LocalPath = some b ∧
    (∀ p, t.remote p = if p = u.RemotePath then some b else s.remote p) ∧
    (∀ p, t.disk p =
      if u.DeleteLocalFileAfterUpload = true ∧ p = u.LocalPath then none else s.disk p)

/-! ## Sample inputs -/

/-- A configuration with two download jobs and one upload job, all deleting. -/
def sampleConfig (protocol : String) : Config :=
  { User := "user", Password := "secret", Server := "example.org", Port := 21,
    Protocol := protocol, IgnoreHostKey := false,
    FilesToUpload := [⟨"out.txt", "/srv/out.txt", true⟩],
    FilesToDownload := [⟨"a.txt", "/srv/a.txt", true⟩, ⟨"b.txt", "/srv/b.txt", true⟩] }

/-- The collaborator that refuses to delete `/srv/b.txt` and succeeds otherwise. -/
def failDeleteB : Collab Nat :=
  scripted fun op =>
    if op = .ftpDelete "/srv/b.txt" ∨ op = .sftpRemove "/srv/b.txt" then some "550 denied"
    else none

/-- The collaborator that refuses to open `/srv/b.txt` and succeeds otherwise. -/
def failOpenB : Collab Nat :=
  scripted fun op =>
    if op = .ftpRetr "/srv/b.txt" ∨ op = .sftpOpen "/srv/b.txt" then some "550 denied"
    else none

/-- A configuration that lists the same download job twice and the same upload job twice. -/
def repeatConfig (protocol : String) : Config :=
  { User := "user", Password := "secret", Server := "example.org", Port := 22,
    Protocol := protocol, IgnoreHostKey := true,
    FilesToUpload := [⟨"out.txt", "/srv/out.txt", false⟩, ⟨"out.txt", "/srv/out.txt", false⟩],
    FilesToDownload := [⟨"a.txt", "/srv/a.txt", false⟩, ⟨"a.txt", "/srv/a.txt", false⟩] }

/-- The collaborator on which logging in and creating the SFTP client fail. -/
def failLogin : Collab Nat :=
  scripted fun op =>
    if op = .ftpLogin "user" "secret" ∨ op = .sftpNewClient then some "530 not logged in"
    else none

/-- Stores for the sample configuration: both remote files and the local file exist. -/
def sampleStores : Stores :=
  { remote := Store.ofList [("/srv/a.txt", [1, 2, 3]), ("/srv/b.txt", [4])],
    disk := Store.ofList [("out.txt", [5, 6])],
    handles := [] }

/-- A configuration whose upload job writes the remote path its download job deletes. -/
def reuploadConfig (protocol : String) : Config :=
  { User := "user", Password := "secret", Server := "example.org", Port := 21,
    Protocol := protocol, IgnoreHostKey := false,
    FilesToUpload := [⟨"out.txt", "/srv/a.txt", false⟩],
    FilesToDownload := [⟨"a.txt", "/srv/a.txt", true⟩] }

/-- A configuration whose second download job writes the local path of the first. -/
def overwriteConfig (protocol : String) : Config :=
  { User := "user", Password := "secret", Server := "example.org", Port := 21,
    Protocol := protocol, IgnoreHostKey := false,
    FilesToUpload := [],
    FilesToDownload := [⟨"a.txt", "/srv/a.txt", true⟩, ⟨"a.txt", "/srv/b.txt", false⟩] }

/-- A configuration whose upload job uploads and then removes the downloaded file. -/
def forwardConfig (protocol : String) : Config :=
  { User := "user", Password := "secret", Server := "example.org", Port := 21,
    Protocol := protocol, IgnoreHostKey := false,
    FilesToUpload := [⟨"a.txt", "/srv/copy.txt", true⟩],
    FilesToDownload := [⟨"a.txt", "/srv/a.txt", true⟩] }

/-- A configuration with a single upload job and no deletion. -/
def uploadOnly (protocol localPath remotePath : String) : Config :=
  { User := "user", Password := "secret", Server := "example.org", Port := 21,
    Protocol := protocol, IgnoreHostKey := false,
    FilesToUpload := [⟨localPath, remotePath, false⟩],
    FilesToDownload := [] }

/-- A configuration with a single download job. -/
def downloadOnly (protocol localPath remotePath : String) (delete : Bool) : Config :=
  { User := "user", Password := "secret", Server := "example.org", Port := 21,
    Protocol := protocol, IgnoreHostKey := false,
    FilesToUpload := [],
    FilesToDownload := [⟨localPath, remotePath, delete⟩] }

/-! ## Sequencing lemmas -/

section Lemmas

variable {σ α β : Type}



theorem Res.err_eq_none_iff (r : Res σ Unit) : r.err = none ↔ r.val = .ok () := by
  unfold Res.err
  cases r.val <;> simp

theorem Res.err_eq_some_iff (r : Res σ α) (e : Err) : r.err = some e ↔ r.val = .error e := by
  unfold Res.err
  cases r.val <;> simp

theorem step_of_error {m : σ → Res σ α} {k : α → σ → Res σ β} {w : σ} {e : Err}
    (h : (m w).val = .error e) :
    step m k w = ⟨.error e, (m w).world, (m w).log, (m w).defers⟩ := by
  simp [step, h]

theorem step_of_ok {m : σ → Res σ α} {k : α → σ → Res σ β} {w : σ} {a : α}
    (h : (m w).val = .ok a) :
    step m k w = ⟨(k a (m w).world).val, (k a (m w).world).world,
      (m w).log ++ (k a (m w).world).log, (m w).defers ++ (k a (m w).world).defers⟩ := by
  simp [step, h]

theorem runCalls_ops (C : Collab σ) (ops : List Op) (w : σ) :
    (runCalls C ops w).2.map Event.op = ops := by
  induction ops generalizing w with
  | nil => rfl
  | cons op ops ih => simp [runCalls, ih]

theorem runCalls_append (C : Collab σ) (xs ys : List Op) (w : σ) :
    runCalls C (xs ++ ys) w =
      ((runCalls C ys (runCalls C xs w).1).1,
        (runCalls C xs w).2 ++ (runCalls C ys (runCalls C xs w).1).2) := by
  induction xs generalizing w with
  | nil => simp [runCalls]
  | cons op ops ih => simp [runCalls, ih]

theorem runCalls_mem_op (C : Collab σ) (ops : List Op) (w : σ) (x : Event)
    (hx : x ∈ (runCalls C ops w).2) : x.op ∈ ops := by
  have h := runCalls_ops C ops w
  rw [← h]
  exact List.mem_map_of_mem _ hx

/-- A loop whose first `N` bodies succeed and whose body number `N` fails stops there. -/
theorem runJobs_fail_at (job : α → σ → Res σ Unit) (j : α) (e : Err) :
    ∀ (js : List α) (N : Nat) (w : σ), js[N]? = some j →
      (runJobs job (js.take N) w).val = .ok () →
      (job j (runJobs job (js.take N) w).world).val = .error e →
      runJobs job js w =
        ⟨.error e, (job j (runJobs job (js.take N) w).world).world,
          (runJobs job (js.take N) w).log ++ (job j (runJobs job (js.take N) w).world).log,
          (runJobs job (js.take N) w).defers ++
            (job j (runJobs job (js.take N) w).world).defers⟩ := by
  intro js
  induction js with
  | nil => intro N w h; simp at h
  | cons a js ih =>
    intro N w hN hok hfail
    cases N with
    | zero =>
      simp at hN
      subst hN
      simp [runJobs, done] at hfail ⊢
      rw [step_of_error hfail]
    | succ n =>
      simp at hN
      simp only [List.take_succ_cons, runJobs] at hok hfail ⊢
      cases ha : (job a w).val with
      | error e1 => rw [step_of_error ha] at hok; simp at hok
      | ok u =>
        rw [step_of_ok ha] at hok hfail ⊢
        simp only at hok hfail
        rw [ih n _ hN hok hfail]
        simp [step_of_ok ha]

/-- A loop that returns no error ran every body without error. -/
theorem runJobs_ok_cons (job : α → σ → Res σ Unit) (j : α) (js : List α) (w : σ)
    (h : (runJobs job (j :: js) w).val = .ok ()) :
    (job j w).val = .ok () ∧ (runJobs job js (job j w).world).val = .ok () ∧
      runJobs job (j :: js) w =
        ⟨.ok (), (runJobs job js (job j w).world).world,
          (job j w).log ++ (runJobs job js (job j w).world).log,
          (job j w).defers ++ (runJobs job js (job j w).world).defers⟩ := by
  simp only [runJobs] at h ⊢
  cases ha : (job j w).val with
  | error e1 => rw [step_of_error ha] at h; simp at h
  | ok u =>
    rw [step_of_ok ha] at h ⊢
    simp only at h
    simp [h]

/-! ## The shapes a job's log can take -/

theorem ftpDownload_cases (C : Collab σ) (j : DownloadJob) (w : σ) :
    (ftpDownload C j w).defers = [] ∧
    ((∃ e, (ftpDownload C j w).val = .error e ∧
        (ftpDownload C j w).log = [⟨.ftpRetr j.RemotePath, some e⟩]) ∨
     (∃ e h, (ftpDownload C j w).val = .error e ∧
        (ftpDownload C j w).log =
          [⟨.ftpRetr j.RemotePath, none⟩, ⟨.ioReadAll (.ftpResp h), some e⟩]) ∨
     (∃ e h b, (ftpDownload C j w).val = .error e ∧
        (ftpDownload C j w).log =
          [⟨.ftpRetr j.RemotePath, none⟩, ⟨.ioReadAll (.ftpResp h), none⟩,
           ⟨.osWriteFile j.LocalPath b 0o600, some e⟩]) ∨
     (∃ e h b, (ftpDownload C j w).val = .error e ∧ j.DeleteRemoteFileAfterDownload = true ∧
        (ftpDownload C j w).log =
          [⟨.ftpRetr j.RemotePath, none⟩, ⟨.ioReadAll (.ftpResp h), none⟩,
           ⟨.osWriteFile j.LocalPath b 0o600, none⟩, ⟨.ftpDelete j.RemotePath, some e⟩]) ∨
     (∃ h b, (ftpDownload C j w).val = .ok () ∧ j.DeleteRemoteFileAfterDownload = true ∧
        (ftpDownload C j w).log =
          [⟨.ftpRetr j.RemotePath, none⟩, ⟨.ioReadAll (.ftpResp h), none⟩,
           ⟨.osWriteFile j.LocalPath b 0o600, none⟩, ⟨.ftpDelete j.RemotePath, none⟩]) ∨
     (∃ h b, (ftpDownload C j w).val = .ok () ∧ j.DeleteRemoteFileAfterDownload = false ∧
        (ftpDownload C j w).log =
          [⟨.ftpRetr j.RemotePath, none⟩, ⟨.ioReadAll (.ftpResp h), none⟩,
           ⟨.osWriteFile j.LocalPath b 0o600, none⟩])) := by
  unfold ftpDownload
  rcases h1 : C.acquire (.ftpRetr j.RemotePath) w with ⟨r1, w1⟩
  cases r1 with
  | error e => simp [step, acquire, h1]
  | ok h =>
    rcases h2 : C.read (.ioReadAll (.ftpResp h)) w1 with ⟨r2, w2⟩
    cases r2 with
    | error e => simp [step, acquire, readAll, h1, h2]
    | ok b =>
      rcases h3 : C.call (.osWriteFile j.LocalPath b 0o600) w2 with ⟨r3, w3⟩
      cases r3 with
      | some e => simp [step, acquire, readAll, call, h1, h2, h3]
      | none =>
        cases hd : j.DeleteRemoteFileAfterDownload with
        | false => simp [step, acquire, readAll, call, done, h1, h2, h3]
        | true =>
          rcases h4 : C.call (.ftpDelete j.RemotePath) w3 with ⟨r4, w4⟩
          cases r4 with
          | some e => simp [step, acquire, readAll, call, done, h1, h2, h3, h4]
          | none => simp [step, acquire, readAll, call, done, h1, h2, h3, h4]

theorem ftpUpload_cases (C : Collab σ) (j : UploadJob) (w : σ) :
    (ftpUpload C j w).defers = [] ∧
    ((∃ e, (ftpUpload C j w).val = .error e ∧
        (ftpUpload C j w).log = [⟨.osOpen j.LocalPath, some e⟩]) ∨
     (∃ e h, (ftpUpload C j w).val = .error e ∧
        (ftpUpload C j w).log =
          [⟨.osOpen j.LocalPath, none⟩, ⟨.ftpStor j.RemotePath (.osFile h), some e⟩]) ∨
     (∃ e h, (ftpUpload C j w).val = .error e ∧ j.DeleteLocalFileAfterUpload = true ∧
        (ftpUpload C j w).log =
          [⟨.osOpen j.LocalPath, none⟩, ⟨.ftpStor j.RemotePath (.osFile h), none⟩,
           ⟨.osRemove j.LocalPath, some e⟩]) ∨
     (∃ h, (ftpUpload C j w).val = .ok () ∧ j.DeleteLocalFileAfterUpload = true ∧
        (ftpUpload C j w).log =
          [⟨.osOpen j.LocalPath, none⟩, ⟨.ftpStor j.RemotePath (.osFile h), none⟩,
           ⟨.osRemove j.LocalPath, none⟩]) ∨
     (∃ h, (ftpUpload C j w).val = .ok () ∧ j.DeleteLocalFileAfterUpload = false ∧
        (ftpUpload C j w).log =
          [⟨.osOpen j.LocalPath, none⟩, ⟨.ftpStor j.RemotePath (.osFile h), none⟩])) := by
  unfold ftpUpload
  rcases h1 : C.acquire (.osOpen j.LocalPath) w with ⟨r1, w1⟩
  cases r1 with
  | error e => simp [step, acquire, h1]
  | ok h =>
    rcases h3 : C.call (.ftpStor j.RemotePath (.osFile h)) w1 with ⟨r3, w3⟩
    cases r3 with
    | some e => simp [step, acquire, call, h1, h3]
    | none =>
      cases hd : j.DeleteLocalFileAfterUpload with
      | false => simp [step, acquire, call, done, h1, h3]
      | true =>
        rcases h4 : C.call (.osRemove j.LocalPath) w3 with ⟨r4, w4⟩
        cases r4 with
        | some e => simp [step, acquire, call, done, h1, h3, h4]
        | none => simp [step, acquire, call, done, h1, h3, h4]

theorem sftpDownload_cases (C : Collab σ) (j : DownloadJob) (w : σ) :
    (∃ e, (sftpDownload C j w).val = .error e ∧ (sftpDownload C j w).defers = [] ∧
        (sftpDownload C j w).log =
          [⟨.sftpOpen j.RemotePath, some e⟩, ⟨.print (sftpDownloadMsg .openRemote e), none⟩]) ∨
    (∃ e r, (sftpDownload C j w).val = .error e ∧
        (sftpDownload C j w).defers = [.fileClose (.sftpFile r)] ∧
        (sftpDownload C j w).log =
          [⟨.sftpOpen j.RemotePath, none⟩, ⟨.osCreate j.LocalPath, some e⟩,
           ⟨.print (sftpDownloadMsg .createLocal e), none⟩]) ∨
    (∃ e r l, (sftpDownload C j w).val = .error e ∧
        (sftpDownload C j w).defers = [.fileClose (.sftpFile r), .fileClose (.osFile l)] ∧
        (sftpDownload C j w).log =
          [⟨.sftpOpen j.RemotePath, none⟩, ⟨.osCreate j.LocalPath, none⟩,
           ⟨.ioCopy (.osFile l) (.sftpFile r), some e⟩,
           ⟨.print (sftpDownloadMsg .copy e), none⟩]) ∨
    (∃ e r l, (sftpDownload C j w).val = .error e ∧
        j.DeleteRemoteFileAfterDownload = true ∧
        (sftpDownload C j w).defers = [.fileClose (.sftpFile r), .fileClose (.osFile l)] ∧
        (sftpDownload C j w).log =
          [⟨.sftpOpen j.RemotePath, none⟩, ⟨.osCreate j.LocalPath, none⟩,
           ⟨.ioCopy (.osFile l) (.sftpFile r), none⟩, ⟨.sftpRemove j.RemotePath, some e⟩,
           ⟨.print (sftpDownloadMsg .deleteRemote e), none⟩]) ∨
    (∃ r l, (sftpDownload C j w).val = .ok () ∧ j.DeleteRemoteFileAfterDownload = true ∧
        (sftpDownload C j w).defers = [.fileClose (.sftpFile r), .fileClose (.osFile l)] ∧
        (sftpDownload C j w).log =
          [⟨.sftpOpen j.RemotePath, none⟩, ⟨.osCreate j.LocalPath, none⟩,
           ⟨.ioCopy (.osFile l) (.sftpFile r), none⟩, ⟨.sftpRemove j.RemotePath, none⟩]) ∨
    (∃ r l, (sftpDownload C j w).val = .ok () ∧ j.DeleteRemoteFileAfterDownload = false ∧
        (sftpDownload C j w).defers = [.fileClose (.sftpFile r), .fileClose (.osFile l)] ∧
        (sftpDownload C j w).log =
          [⟨.sftpOpen j.RemotePath, none⟩, ⟨.osCreate j.LocalPath, none⟩,
           ⟨.ioCopy (.osFile l) (.sftpFile r), none⟩]) := by
  unfold sftpDownload
  rcases h1 : C.acquire (.sftpOpen j.RemotePath) w with ⟨r1, w1⟩
  cases r1 with
  | error e => simp [step, reported, acquire, sftpDownloadMsg, h1]
  | ok r =>
    rcases h2 : C.acquire (.osCreate j.LocalPath) w1 with ⟨r2, w2⟩
    cases r2 with
    | error e => simp [step, reported, acquire, defer, sftpDownloadMsg, h1, h2]
    | ok l =>
      rcases h3 : C.call (.ioCopy (.osFile l) (.sftpFile r)) w2 with ⟨r3, w3⟩
      cases r3 with
      | some e => (simp [step, reported, acquire, defer, call, sftpDownloadMsg, h1, h2, h3]; exact ⟨_, _, ⟨rfl, rfl⟩, rfl, rfl⟩)
      | none =>
        cases hd : j.DeleteRemoteFileAfterDownload with
        | false => (simp [step, reported, acquire, defer, call, done, h1, h2, h3]; exact ⟨_, _, ⟨rfl, rfl⟩, rfl, rfl⟩)
        | true =>
          rcases h4 : C.call (.sftpRemove j.RemotePath) w3 with ⟨r4, w4⟩
          cases r4 with
          | some e =>
            (simp [step, reported, acquire, defer, call, done, sftpDownloadMsg, h1, h2, h3, h4]; exact ⟨_, _, ⟨rfl, rfl⟩, rfl, rfl⟩)
          | none => (simp [step, reported, acquire, defer, call, done, h1, h2, h3, h4]; exact ⟨_, _, ⟨rfl, rfl⟩, rfl, rfl⟩)

theorem sftpUpload_cases (C : Collab σ) (j : UploadJob) (w : σ) :
    (∃ e, (sftpUpload C j w).val = .error e ∧ (sftpUpload C j w).defers = [] ∧
        (sftpUpload C j w).log =
          [⟨.osOpen j.LocalPath, some e⟩,
           ⟨.print ("Error opening local file: " ++ e ++ " \n"), none⟩]) ∨
    (∃ e l, (sftpUpload C j w).val = .error e ∧
        (sftpUpload C j w).defers = [.fileClose (.osFile l)] ∧
        (sftpUpload C j w).log =
          [⟨.osOpen j.LocalPath, none⟩, ⟨.sftpCreate j.RemotePath, some e⟩,
           ⟨.print ("Error creating remote file: " ++ e ++ "\n"), none⟩]) ∨
    (∃ e l r, (sftpUpload C j w).val = .error e ∧
        (sftpUpload C j w).defers = [.fileClose (.osFile l), .fileClose (.sftpFile r)] ∧
        (sftpUpload C j w).log =
          [⟨.osOpen j.LocalPath, none⟩, ⟨.sftpCreate j.RemotePath, none⟩,
           ⟨.ioCopy (.sftpFile r) (.osFile l), some e⟩,
           ⟨.print ("Error copying data: " ++ e ++ "\n"), none⟩]) ∨
    (∃ e l r, (sftpUpload C j w).val = .error e ∧
        j.DeleteLocalFileAfterUpload = true ∧
        (sftpUpload C j w).defers = [.fileClose (.osFile l), .fileClose (.sftpFile r)] ∧
        (sftpUpload C j w).log =
          [⟨.osOpen j.LocalPath, none⟩, ⟨.sftpCreate j.RemotePath, none⟩,
           ⟨.ioCopy (.sftpFile r) (.osFile l), none⟩, ⟨.osRemove j.LocalPath, some e⟩,
           ⟨.print ("Error deleting local file: " ++ e ++ "\n"), none⟩]) ∨
    (∃ l r, (sftpUpload C j w).val = .ok () ∧ j.DeleteLocalFileAfterUpload = true ∧
        (sftpUpload C j w).defers = [.fileClose (.osFile l), .fileClose (.sftpFile r)] ∧
        (sftpUpload C j w).log =
          [⟨.osOpen j.LocalPath, none⟩, ⟨.sftpCreate j.RemotePath, none⟩,
           ⟨.ioCopy (.sftpFile r) (.osFile l), none⟩, ⟨.osRemove j.LocalPath, none⟩]) ∨
    (∃ l r, (sftpUpload C j w).val = .ok () ∧ j.DeleteLocalFileAfterUpload = false ∧
        (sftpUpload C j w).defers = [.fileClose (.osFile l), .fileClose (.sftpFile r)] ∧
        (sftpUpload C j w).log =
          [⟨.osOpen j.LocalPath, none⟩, ⟨.sftpCreate j.RemotePath, none⟩,
           ⟨.ioCopy (.sftpFile r) (.osFile l), none⟩]) := by
  unfold sftpUpload
  rcases h1 : C.acquire (.osOpen j.LocalPath) w with ⟨r1, w1⟩
  cases r1 with
  | error e => simp [step, reported, acquire, h1]
  | ok l =>
    rcases h2 : C.acquire (.sftpCreate j.RemotePath) w1 with ⟨r2, w2⟩
    cases r2 with
    | error e => simp [step, reported, acquire, defer, h1, h2]
    | ok r =>
      rcases h3 : C.call (.ioCopy (.sftpFile r) (.osFile l)) w2 with ⟨r3, w3⟩
      cases r3 with
      | some e => (simp [step, reported, acquire, defer, call, h1, h2, h3]; exact ⟨_, _, ⟨rfl, rfl⟩, rfl, rfl⟩)
      | none =>
        cases hd : j.DeleteLocalFileAfterUpload with
        | false => (simp [step, reported, acquire, defer, call, done, h1, h2, h3]; exact ⟨_, _, ⟨rfl, rfl⟩, rfl, rfl⟩)
        | true =>
          rcases h4 : C.call (.osRemove j.LocalPath) w3 with ⟨r4, w4⟩
          cases r4 with
          | some e => (simp [step, reported, acquire, defer, call, done, h1, h2, h3, h4]; exact ⟨_, _, ⟨rfl, rfl⟩, rfl, rfl⟩)
          | none => (simp [step, reported, acquire, defer, call, done, h1, h2, h3, h4]; exact ⟨_, _, ⟨rfl, rfl⟩, rfl, rfl⟩)

/-! ## Laws of the job loops -/

theorem ftpDownload_laws (C : Collab σ) : JobLaws (ftpDownload C) where
  ok_log j w h := by
    rcases (ftpDownload_cases C j w).2 with ⟨e, hv, _⟩ | ⟨e, _, hv, _⟩ | ⟨e, _, _, hv, _⟩ |
      ⟨e, _, _, hv, _⟩ | ⟨_, _, _, _, hl⟩ | ⟨_, _, _, _, hl⟩
    · rw [hv] at h; cases h
    · rw [hv] at h; cases h
    · rw [hv] at h; cases h
    · rw [hv] at h; cases h
    · rw [hl]; simp [Op.isTransfer]
    · rw [hl]; simp [Op.isTransfer]
  fail_log j w e h := by
    rcases (ftpDownload_cases C j w).2 with ⟨e1, hv, hl⟩ | ⟨e1, _, hv, hl⟩ |
      ⟨e1, _, _, hv, hl⟩ | ⟨e1, _, _, hv, _, hl⟩ | ⟨_, _, hv, _⟩ | ⟨_, _, hv, _⟩
    · rw [hv] at h; cases h
      refine ⟨[], _, [], by rw [hl]; rfl, ?_, ?_, ?_⟩ <;> simp [Op.isTransfer, Op.isPrint]
    · rw [hv] at h; cases h
      refine ⟨[_], _, [], by rw [hl]; rfl, ?_, ?_, ?_⟩ <;> simp [Op.isTransfer, Op.isPrint]
    · rw [hv] at h; cases h
      refine ⟨[_, _], _, [], by rw [hl]; rfl, ?_, ?_, ?_⟩ <;> simp [Op.isTransfer, Op.isPrint]
    · rw [hv] at h; cases h
      refine ⟨[_, _, _], _, [], by rw [hl]; rfl, ?_, ?_, ?_⟩ <;> simp [Op.isTransfer, Op.isPrint]
    · rw [hv] at h; cases h
    · rw [hv] at h; cases h
  defers_close j w := by simp [(ftpDownload_cases C j w).1]

theorem ftpUpload_laws (C : Collab σ) : JobLaws (ftpUpload C) where
  ok_log j w h := by
    rcases (ftpUpload_cases C j w).2 with ⟨e, hv, _⟩ | ⟨e, _, hv, _⟩ | ⟨e, _, hv, _⟩ |
      ⟨_, _, _, hl⟩ | ⟨_, _, _, hl⟩
    · rw [hv] at h; cases h
    · rw [hv] at h; cases h
    · rw [hv] at h; cases h
    · rw [hl]; simp [Op.isTransfer]
    · rw [hl]; simp [Op.isTransfer]
  fail_log j w e h := by
    rcases (ftpUpload_cases C j w).2 with ⟨e1, hv, hl⟩ | ⟨e1, _, hv, hl⟩ |
      ⟨e1, _, hv, _, hl⟩ | ⟨_, hv, _⟩ | ⟨_, hv, _⟩
    · rw [hv] at h; cases h
      refine ⟨[], _, [], by rw [hl]; rfl, ?_, ?_, ?_⟩ <;> simp [Op.isTransfer, Op.isPrint]
    · rw [hv] at h; cases h
      refine ⟨[_], _, [], by rw [hl]; rfl, ?_, ?_, ?_⟩ <;> simp [Op.isTransfer, Op.isPrint]
    · rw [hv] at h; cases h
      refine ⟨[_, _], _, [], by rw [hl]; rfl, ?_, ?_, ?_⟩ <;> simp [Op.isTransfer, Op.isPrint]
    · rw [hv] at h; cases h
    · rw [hv] at h; cases h
  defers_close j w := by simp [(ftpUpload_cases C j w).1]

theorem sftpDownload_laws (C : Collab σ) : JobLaws (sftpDownload C) where
  ok_log j w h := by
    rcases sftpDownload_cases C j w with ⟨e, hv, _⟩ | ⟨e, _, hv, _⟩ | ⟨e, _, _, hv, _⟩ |
      ⟨e, _, _, hv, _⟩ | ⟨_, _, _, _, _, hl⟩ | ⟨_, _, _, _, _, hl⟩
    · rw [hv] at h; cases h
    · rw [hv] at h; cases h
    · rw [hv] at h; cases h
    · rw [hv] at h; cases h
    · rw [hl]; simp [Op.isTransfer]
    · rw [hl]; simp [Op.isTransfer]
  fail_log j w e h := by
    rcases sftpDownload_cases C j w with ⟨e1, hv, _, hl⟩ | ⟨e1, _, hv, _, hl⟩ |
      ⟨e1, _, _, hv, _, hl⟩ | ⟨e1, _, _, hv, _, _, hl⟩ | ⟨_, _, hv, _⟩ | ⟨_, _, hv, _⟩
    · rw [hv] at h; cases h
      refine ⟨[], _, [_], by rw [hl]; rfl, ?_, ?_, ?_⟩ <;> simp [Op.isTransfer, Op.isPrint]
    · rw [hv] at h; cases h
      refine ⟨[_], _, [_], by rw [hl]; rfl, ?_, ?_, ?_⟩ <;> simp [Op.isTransfer, Op.isPrint]
    · rw [hv] at h; cases h
      refine ⟨[_, _], _, [_], by rw [hl]; rfl, ?_, ?_, ?_⟩ <;> simp [Op.isTransfer, Op.isPrint]
    · rw [hv] at h; cases h
      refine ⟨[_, _, _], _, [_], by rw [hl]; rfl, ?_, ?_, ?_⟩ <;> simp [Op.isTransfer, Op.isPrint]
    · rw [hv] at h; cases h
    · rw [hv] at h; cases h
  defers_close j w := by
    rcases sftpDownload_cases C j w with ⟨_, _, hd, _⟩ | ⟨_, _, _, hd, _⟩ |
      ⟨_, _, _, _, hd, _⟩ | ⟨_, _, _, _, _, hd, _⟩ | ⟨_, _, _, _, hd, _⟩ | ⟨_, _, _, _, hd, _⟩ <;>
    simp [hd, Op.isFileClose]

theorem sftpUpload_laws (C : Collab σ) : JobLaws (sftpUpload C) where
  ok_log j w h := by
    rcases sftpUpload_cases C j w with ⟨e, hv, _⟩ | ⟨e, _, hv, _⟩ | ⟨e, _, _, hv, _⟩ |
      ⟨e, _, _, hv, _⟩ | ⟨_, _, _, _, _, hl⟩ | ⟨_, _, _, _, _, hl⟩
    · rw [hv] at h; cases h
    · rw [hv] at h; cases h
    · rw [hv] at h; cases h
    · rw [hv] at h; cases h
    · rw [hl]; simp [Op.isTransfer]
    · rw [hl]; simp [Op.isTransfer]
  fail_log j w e h := by
    rcases sftpUpload_cases C j w with ⟨e1, hv, _, hl⟩ | ⟨e1, _, hv, _, hl⟩ |
      ⟨e1, _, _, hv, _, hl⟩ | ⟨e1, _, _, hv, _, _, hl⟩ | ⟨_, _, hv, _⟩ | ⟨_, _, hv, _⟩
    · rw [hv] at h; cases h
      refine ⟨[], _, [_], by rw [hl]; rfl, ?_, ?_, ?_⟩ <;> simp [Op.isTransfer, Op.isPrint]
    · rw [hv] at h; cases h
      refine ⟨[_], _, [_], by rw [hl]; rfl, ?_, ?_, ?_⟩ <;> simp [Op.isTransfer, Op.isPrint]
    · rw [hv] at h; cases h
      refine ⟨[_, _], _, [_], by rw [hl]; rfl, ?_, ?_, ?_⟩ <;> simp [Op.isTransfer, Op.isPrint]
    · rw [hv] at h; cases h
      refine ⟨[_, _, _], _, [_], by rw [hl]; rfl, ?_, ?_, ?_⟩ <;> simp [Op.isTransfer, Op.isPrint]
    · rw [hv] at h; cases h
    · rw [hv] at h; cases h
  defers_close j w := by
    rcases sftpUpload_cases C j w with ⟨_, _, hd, _⟩ | ⟨_, _, _, hd, _⟩ |
      ⟨_, _, _, _, hd, _⟩ | ⟨_, _, _, _, _, hd, _⟩ | ⟨_, _, _, _, hd, _⟩ | ⟨_, _, _, _, hd, _⟩ <;>
    simp [hd, Op.isFileClose]

theorem runJobs_ok_log (job : α → σ → Res σ Unit) (P : Event → Prop)
    (hjob : ∀ j w, (job j w).val = .ok () → ∀ x ∈ (job j w).log, P x) :
    ∀ (js : List α) (w : σ), (runJobs job js w).val = .ok () →
      ∀ x ∈ (runJobs job js w).log, P x := by
  intro js
  induction js with
  | nil => intro w _ x hx; simp [runJobs, done] at hx
  | cons j js ih =>
    intro w h x hx
    obtain ⟨h1, h2, h3⟩ := runJobs_ok_cons job j js w h
    rw [h3] at hx
    rcases List.mem_append.1 hx with hx | hx
    · exact hjob j w h1 x hx
    · exact ih _ h2 x hx

theorem runJobs_defers (job : α → σ → Res σ Unit) (P : Op → Prop)
    (hjob : ∀ j w, ∀ op ∈ (job j w).defers, P op) :
    ∀ (js : List α) (w : σ), ∀ op ∈ (runJobs job js w).defers, P op := by
  intro js
  induction js with
  | nil => intro w op hop; simp [runJobs, done] at hop
  | cons j js ih =>
    intro w op hop
    simp only [runJobs] at hop
    cases ha : (job j w).val with
    | error e1 =>
      rw [step_of_error ha] at hop
      exact hjob j w op hop
    | ok u =>
      rw [step_of_ok ha] at hop
      rcases List.mem_append.1 hop with hop | hop
      · exact hjob j w op hop
      · exact ih _ op hop

/-! ## Connecting and returning -/

theorem Op.not_transfer_of_isPrint (op : Op) (h : op.isPrint = true) :
    op.isTransfer = false ∧ op.isConnect = false := by
  cases op <;> simp [Op.isPrint, Op.isTransfer, Op.isConnect] at h ⊢

theorem Op.not_transfer_of_isClose (op : Op) (h : op.isClose = true) :
    op.isTransfer = false ∧ op.isConnect = false := by
  cases op <;> simp [Op.isClose, Op.isTransfer, Op.isConnect] at h ⊢

theorem Op.isClose_of_isFileClose (op : Op) (h : op.isFileClose = true) :
    op.isClose = true := by
  cases op <;> simp [Op.isClose, Op.isFileClose] at h ⊢

theorem ftpConnect_cases (C : Collab σ) (c : Config) (w : σ) :
    (∃ e, (C.call (ftpDialOp c) w).1 = some e ∧ (ftpConnect C c w).val = .error e ∧
      (ftpConnect C c w).defers = [] ∧
      (ftpConnect C c w).log =
        [⟨.print "Connecting to FTP server\n", none⟩, ⟨ftpDialOp c, some e⟩]) ∨
    (∃ e, (C.call (ftpDialOp c) w).1 = none ∧ (ftpConnect C c w).val = .error e ∧
      (ftpConnect C c w).defers = [.ftpQuit] ∧
      (ftpConnect C c w).log =
        [⟨.print "Connecting to FTP server\n", none⟩, ⟨ftpDialOp c, none⟩,
         ⟨.ftpLogin c.User c.Password, some e⟩]) ∨
    ((C.call (ftpDialOp c) w).1 = none ∧ (ftpConnect C c w).val = .ok () ∧
      (ftpConnect C c w).defers = [.ftpQuit] ∧
      (ftpConnect C c w).log =
        [⟨.print "Connecting to FTP server\n", none⟩, ⟨ftpDialOp c, none⟩,
         ⟨.ftpLogin c.User c.Password, none⟩]) := by
  unfold ftpConnect
  rcases h1 : C.call (ftpDialOp c) w with ⟨r1, w1⟩
  cases r1 with
  | some e => simp [step, print, call, h1]
  | none =>
    rcases h2 : C.call (.ftpLogin c.User c.Password) w1 with ⟨r2, w2⟩
    cases r2 with
    | some e => simp [step, print, call, defer, h1, h2]
    | none => simp [step, print, call, defer, h1, h2]

theorem sftpConnect_cases (C : Collab σ) (c : Config) (w : σ) :
    (∃ e, (C.call (sshDialOp c) w).1 = some e ∧ (sftpConnect C c w).val = .error e ∧
      (sftpConnect C c w).defers = [] ∧
      (sftpConnect C c w).log = [⟨sshDialOp c, some e⟩]) ∨
    (∃ e, (C.call (sshDialOp c) w).1 = none ∧
      (C.call .sftpNewClient (C.call (sshDialOp c) w).2).1 = some e ∧
      (sftpConnect C c w).val = .error e ∧
      (sftpConnect C c w).defers = [.sshClose] ∧
      (sftpConnect C c w).log = [⟨sshDialOp c, none⟩, ⟨.sftpNewClient, some e⟩]) ∨
    ((C.call (sshDialOp c) w).1 = none ∧
      (C.call .sftpNewClient (C.call (sshDialOp c) w).2).1 = none ∧
      (sftpConnect C c w).val = .ok () ∧
      (sftpConnect C c w).defers = [.sshClose, .sftpClientClose] ∧
      (sftpConnect C c w).log = [⟨sshDialOp c, none⟩, ⟨.sftpNewClient, none⟩]) := by
  unfold sftpConnect
  rcases h1 : C.call (sshDialOp c) w with ⟨r1, w1⟩
  cases r1 with
  | some e => simp [step, call, h1]
  | none =>
    rcases h2 : C.call .sftpNewClient w1 with ⟨r2, w2⟩
    cases r2 with
    | some e => simp [step, call, defer, h1, h2]
    | none => simp [step, call, defer, h1, h2]

theorem ftpConnect_ok (C : Collab σ) (c : Config) (w : σ) (h : (ftpConnect C c w).val = .ok ()) :
    (ftpConnect C c w).defers = [.ftpQuit] ∧
    (ftpConnect C c w).log =
      [⟨.print "Connecting to FTP server\n", none⟩, ⟨ftpDialOp c, none⟩,
       ⟨.ftpLogin c.User c.Password, none⟩] := by
  rcases ftpConnect_cases C c w with ⟨e, _, hv, _⟩ | ⟨e, _, hv, _⟩ | ⟨_, _, hd, hl⟩
  · rw [hv] at h; cases h
  · rw [hv] at h; cases h
  · exact ⟨hd, hl⟩

theorem sftpConnect_ok (C : Collab σ) (c : Config) (w : σ)
    (h : (sftpConnect C c w).val = .ok ()) :
    (sftpConnect C c w).defers = [.sshClose, .sftpClientClose] ∧
    (sftpConnect C c w).log = [⟨sshDialOp c, none⟩, ⟨.sftpNewClient, none⟩] := by
  rcases sftpConnect_cases C c w with ⟨e, _, hv, _⟩ | ⟨e, _, _, hv, _⟩ | ⟨_, _, _, hd, hl⟩
  · rw [hv] at h; cases h
  · rw [hv] at h; cases h
  · exact ⟨hd, hl⟩

/-- A handler whose connection succeeds, whose first `N` download jobs succeed and
whose download job `N` fails: what it returns and leaves. -/
theorem body_fail_in_download (connect rest : σ → Res σ Unit) (dl : α → σ → Res σ Unit)
    (dls : List α) (w : σ) (N : Nat) (j : α) (e : Err)
    (h0 : (connect w).val = .ok ())
    (h1 : (runJobs dl (dls.take N) (connect w).world).val = .ok ())
    (hj : dls[N]? = some j)
    (hf : (dl j (runJobs dl (dls.take N) (connect w).world).world).val = .error e) :
    step connect (fun _ => step (runJobs dl dls) (fun _ => rest)) w =
      ⟨.error e, (dl j (runJobs dl (dls.take N) (connect w).world).world).world,
        (connect w).log ++ ((runJobs dl (dls.take N) (connect w).world).log ++
          (dl j (runJobs dl (dls.take N) (connect w).world).world).log),
        (connect w).defers ++ ((runJobs dl (dls.take N) (connect w).world).defers ++
          (dl j (runJobs dl (dls.take N) (connect w).world).world).defers)⟩ := by
  have h2 := runJobs_fail_at dl j e dls N (connect w).world hj h1 hf
  have h3 : (runJobs dl dls (connect w).world).val = .error e := by rw [h2]
  rw [step_of_ok h0, step_of_error h3, h2]

/-- The log of a handler that fails in download job `N` stops at the failing call. -/
theorem stopsAt_of_fail (C : Collab σ) (connect rest : σ → Res σ Unit)
    (dl : α → σ → Res σ Unit) (dls : List α) (w : σ) (N : Nat) (j : α) (e : Err)
    (hdl : JobLaws dl)
    (hc : ∀ x ∈ (connect w).log, x.err = none)
    (hcd : ∀ op ∈ (connect w).defers, op.isClose = true)
    (h0 : (connect w).val = .ok ())
    (h1 : (runJobs dl (dls.take N) (connect w).world).val = .ok ())
    (hj : dls[N]? = some j)
    (hf : (dl j (runJobs dl (dls.take N) (connect w).world).world).val = .error e) :
    (finish C (step connect (fun _ => step (runJobs dl dls) (fun _ => rest)) w)).val
        = .error e ∧
      StopsAt (finish C (step connect (fun _ => step (runJobs dl dls) (fun _ => rest)) w)).log
        ((connect w).log ++ (runJobs dl (dls.take N) (connect w).world).log) e := by
  rw [body_fail_in_download connect rest dl dls w N j e h0 h1 hj hf]
  refine ⟨rfl, ?_⟩
  obtain ⟨pre, op, tail, hlog, hpre, hop, htail⟩ := hdl.fail_log j _ e hf
  refine ⟨pre, op, tail ++ (runCalls C ((connect w).defers ++
    ((runJobs dl (dls.take N) (connect w).world).defers ++
      (dl j (runJobs dl (dls.take N) (connect w).world).world).defers)).reverse
    (dl j (runJobs dl (dls.take N) (connect w).world).world).world).2, ?_, ?_, hop, ?_⟩
  · simp only [finish, hlog]
    simp [List.append_assoc]
  · intro x hx
    rcases List.mem_append.1 hx with hx | hx
    · rcases List.mem_append.1 hx with hx | hx
      · exact hc x hx
      · exact (runJobs_ok_log dl (fun x => x.err = none ∧ x.op.isTransfer = true)
          hdl.ok_log _ _ h1 x hx).1
    · exact (hpre x hx).1
  · intro x hx
    rcases List.mem_append.1 hx with hx | hx
    · have hp := htail x hx
      exact ⟨(Op.not_transfer_of_isPrint _ hp).1, (Op.not_transfer_of_isPrint _ hp).2, Or.inr hp⟩
    · have hm := runCalls_mem_op C _ _ x hx
      simp only [List.mem_reverse, List.mem_append] at hm
      have hcl : x.op.isClose = true := by
        rcases hm with hm | hm | hm
        · exact hcd _ hm
        · exact Op.isClose_of_isFileClose _
            (runJobs_defers dl (fun op => op.isFileClose = true) hdl.defers_close _ _ _ hm)
        · exact Op.isClose_of_isFileClose _ (hdl.defers_close _ _ _ hm)
      exact ⟨(Op.not_transfer_of_isClose _ hcl).1, (Op.not_transfer_of_isClose _ hcl).2,
        Or.inl hcl⟩

/-! ## What is deferred -/

theorem ftpJobs_defers (C : Collab σ) (c : Config) (w : σ) : (ftpJobs C c w).defers = [] := by
  have h1 := runJobs_defers (ftpDownload C) (fun _ => False)
    (by intro j w op hop; simp [(ftpDownload_cases C j w).1] at hop)
  have h2 := runJobs_defers (ftpUpload C) (fun _ => False)
    (by intro j w op hop; simp [(ftpUpload_cases C j w).1] at hop)
  rw [List.eq_nil_iff_forall_not_mem]
  intro op hop
  unfold ftpJobs at hop
  cases hv : (runJobs (ftpDownload C) c.FilesToDownload w).val with
  | error e =>
    rw [step_of_error hv] at hop
    exact h1 _ _ op hop
  | ok u =>
    rw [step_of_ok hv] at hop
    rcases List.mem_append.1 hop with hop | hop
    · exact h1 _ _ op hop
    · exact h2 _ _ op hop

theorem sftpJobs_defers (C : Collab σ) (c : Config) (w : σ) :
    ∀ op ∈ (sftpJobs C c w).defers, op.isFileClose = true := by
  have h1 := runJobs_defers (sftpDownload C) (fun op => op.isFileClose = true)
    (sftpDownload_laws C).defers_close
  have h2 := runJobs_defers (sftpUpload C) (fun op => op.isFileClose = true)
    (sftpUpload_laws C).defers_close
  intro op hop
  unfold sftpJobs at hop
  cases hv : (runJobs (sftpDownload C) c.FilesToDownload w).val with
  | error e =>
    rw [step_of_error hv] at hop
    exact h1 _ _ op hop
  | ok u =>
    rw [step_of_ok hv] at hop
    rcases List.mem_append.1 hop with hop | hop
    · exact h1 _ _ op hop
    · exact h2 _ _ op hop

/-- The call deferred first runs last. -/
theorem finish_log_last (C : Collab σ) (r : Res σ α) (op : Op) (ds : List Op)
    (h : r.defers = op :: ds) :
    ∃ pre q, (finish C r).log = pre ++ [⟨op, q⟩] := by
  refine ⟨r.log ++ (runCalls C ds.reverse r.world).2,
    (C.call op (runCalls C ds.reverse r.world).1).1, ?_⟩
  simp [finish, h, runCalls_append, runCalls]

/-- The two calls deferred first run last, in the opposite order. -/
theorem finish_log_last_two (C : Collab σ) (r : Res σ α) (op1 op2 : Op) (ds : List Op)
    (h : r.defers = op1 :: op2 :: ds) :
    ∃ pre q2 q1, (finish C r).log = pre ++ [⟨op2, q2⟩, ⟨op1, q1⟩] := by
  refine ⟨r.log ++ (runCalls C ds.reverse r.world).2,
    (C.call op2 (runCalls C ds.reverse r.world).1).1,
    (C.call op1 (C.call op2 (runCalls C ds.reverse r.world).1).2).1, ?_⟩
  simp [finish, h, runCalls_append, runCalls]

/-- Once `ftp.Dial` has succeeded, `ftpProtocol` ends with `Quit`. -/
theorem ftpProtocol_ends_with_quit (C : Collab σ) (c : Config) (w : σ)
    (hdial : (C.call (ftpDialOp c) w).1 = none) :
    ∃ pre q, (ftpProtocol C c w).log = pre ++ [⟨.ftpQuit, q⟩] := by
  unfold ftpProtocol ftpBody
  rcases ftpConnect_cases C c w with ⟨e, hd, _⟩ | ⟨e, _, hv, hdef, _⟩ | ⟨_, hv, hdef, _⟩
  · rw [hdial] at hd; cases hd
  · exact finish_log_last C _ .ftpQuit [] (by rw [step_of_error hv]; exact hdef)
  · exact finish_log_last C _ .ftpQuit [] (by rw [step_of_ok hv]; simp [hdef, ftpJobs_defers])

/-- Once `ssh.Dial` has succeeded, `sftpProtocol` ends with closing the SSH
connection, and once `sftp.NewClient` has succeeded too, with closing the SFTP
client and then the SSH connection. -/
theorem sftpProtocol_ends_with_close (C : Collab σ) (c : Config) (w : σ)
    (hdial : (C.call (sshDialOp c) w).1 = none) :
    (∃ pre q, (sftpProtocol C c w).log = pre ++ [⟨.sshClose, q⟩]) ∧
    ((C.call .sftpNewClient (C.call (sshDialOp c) w).2).1 = none →
      ∃ pre q1 q2, (sftpProtocol C c w).log =
        pre ++ [⟨.sftpClientClose, q1⟩, ⟨.sshClose, q2⟩]) := by
  unfold sftpProtocol sftpBody
  rcases sftpConnect_cases C c w with ⟨e, hd, _⟩ | ⟨e, _, hn, hv, hdef, _⟩ |
    ⟨_, _, hv, hdef, _⟩
  · rw [hdial] at hd; cases hd
  · refine ⟨finish_log_last C _ .sshClose [] (by rw [step_of_error hv]; exact hdef), ?_⟩
    intro h
    rw [hn] at h; cases h
  · have hd2 : (step (sftpConnect C c) (fun _ => sftpJobs C c) w).defers =
        .sshClose :: .sftpClientClose :: (sftpJobs C c (sftpConnect C c w).world).defers := by
      rw [step_of_ok hv]; simp [hdef]
    exact ⟨finish_log_last C _ .sshClose _ hd2,
      fun _ => finish_log_last_two C _ .sshClose .sftpClientClose _ hd2⟩

/-! ## The transfer operations of a successful run -/

theorem step_ok_inv {m : σ → Res σ α} {k : α → σ → Res σ β} {w : σ} {b : β}
    (h : (step m k w).val = .ok b) :
    ∃ a, (m w).val = .ok a ∧ (k a (m w).world).val = .ok b ∧
      (step m k w).log = (m w).log ++ (k a (m w).world).log ∧
      (step m k w).world = (k a (m w).world).world ∧
      (step m k w).defers = (m w).defers ++ (k a (m w).world).defers := by
  cases ha : (m w).val with
  | error e => rw [step_of_error ha] at h; cases h
  | ok a =>
    rw [step_of_ok ha] at h ⊢
    exact ⟨a, rfl, h, rfl, rfl, rfl⟩

theorem transfers_append (l1 l2 : List Event) :
    transfers (l1 ++ l2) = transfers l1 ++ transfers l2 := by
  simp [transfers]

theorem transfers_runCalls (C : Collab σ) (ops : List Op) (w : σ)
    (h : ∀ op ∈ ops, op.isClose = true) : transfers (runCalls C ops w).2 = [] := by
  unfold transfers
  rw [runCalls_ops]
  simp only [List.map_eq_nil_iff, List.filter_eq_nil_iff]
  intro op hop
  simp [(Op.not_transfer_of_isClose op (h op hop)).1]

theorem runJobs_transfers (job : α → σ → Res σ Unit) (plan : α → List Op)
    (hjob : ∀ j w, (job j w).val = .ok () → transfers (job j w).log = plan j) :
    ∀ (js : List α) (w : σ), (runJobs job js w).val = .ok () →
      transfers (runJobs job js w).log = (js.map plan).flatten := by
  intro js
  induction js with
  | nil => intro w _; simp [runJobs, done, transfers]
  | cons j js ih =>
    intro w h
    obtain ⟨h1, h2, h3⟩ := runJobs_ok_cons job j js w h
    rw [h3]
    simp only [transfers_append, hjob j w h1, ih _ h2, List.map_cons, List.flatten_cons]

theorem ftpDownload_transfers (C : Collab σ) (j : DownloadJob) (w : σ)
    (h : (ftpDownload C j w).val = .ok ()) :
    transfers (ftpDownload C j w).log = ftpDownloadPlan j := by
  rcases (ftpDownload_cases C j w).2 with ⟨e, hv, _⟩ | ⟨e, _, hv, _⟩ | ⟨e, _, _, hv, _⟩ |
    ⟨e, _, _, hv, _⟩ | ⟨_, _, _, hd, hl⟩ | ⟨_, _, _, hd, hl⟩
  · rw [hv] at h; cases h
  · rw [hv] at h; cases h
  · rw [hv] at h; cases h
  · rw [hv] at h; cases h
  · rw [hl]; simp [transfers, ftpDownloadPlan, hd, Op.isTransfer, Op.shape]
  · rw [hl]; simp [transfers, ftpDownloadPlan, hd, Op.isTransfer, Op.shape]

theorem ftpUpload_transfers (C : Collab σ) (j : UploadJob) (w : σ)
    (h : (ftpUpload C j w).val = .ok ()) :
    transfers (ftpUpload C j w).log = ftpUploadPlan j := by
  rcases (ftpUpload_cases C j w).2 with ⟨e, hv, _⟩ | ⟨e, _, hv, _⟩ | ⟨e, _, hv, _⟩ |
    ⟨_, _, hd, hl⟩ | ⟨_, _, hd, hl⟩
  · rw [hv] at h; cases h
  · rw [hv] at h; cases h
  · rw [hv] at h; cases h
  · rw [hl]; simp [transfers, ftpUploadPlan, hd, Op.isTransfer, Op.shape]
  · rw [hl]; simp [transfers, ftpUploadPlan, hd, Op.isTransfer, Op.shape]

theorem sftpDownload_transfers (C : Collab σ) (j : DownloadJob) (w : σ)
    (h : (sftpDownload C j w).val = .ok ()) :
    transfers (sftpDownload C j w).log = sftpDownloadPlan j := by
  rcases sftpDownload_cases C j w with ⟨e, hv, _⟩ | ⟨e, _, hv, _⟩ | ⟨e, _, _, hv, _⟩ |
    ⟨e, _, _, hv, _⟩ | ⟨_, _, _, hd, _, hl⟩ | ⟨_, _, _, hd, _, hl⟩
  · rw [hv] at h; cases h
  · rw [hv] at h; cases h
  · rw [hv] at h; cases h
  · rw [hv] at h; cases h
  · rw [hl]; simp [transfers, sftpDownloadPlan, hd, Op.isTransfer, Op.shape]
  · rw [hl]; simp [transfers, sftpDownloadPlan, hd, Op.isTransfer, Op.shape]

theorem sftpUpload_transfers (C : Collab σ) (j : UploadJob) (w : σ)
    (h : (sftpUpload C j w).val = .ok ()) :
    transfers (sftpUpload C j w).log = sftpUploadPlan j := by
  rcases sftpUpload_cases C j w with ⟨e, hv, _⟩ | ⟨e, _, hv, _⟩ | ⟨e, _, _, hv, _⟩ |
    ⟨e, _, _, hv, _⟩ | ⟨_, _, _, hd, _, hl⟩ | ⟨_, _, _, hd, _, hl⟩
  · rw [hv] at h; cases h
  · rw [hv] at h; cases h
  · rw [hv] at h; cases h
  · rw [hv] at h; cases h
  · rw [hl]; simp [transfers, sftpUploadPlan, hd, Op.isTransfer, Op.shape]
  · rw [hl]; simp [transfers, sftpUploadPlan, hd, Op.isTransfer, Op.shape]

/-- The transfer operations of a handler that returns no error: those of its
download jobs in list order, then those of its upload jobs in list order. -/
theorem handler_transfers (C : Collab σ) (connect : σ → Res σ Unit)
    (dl : α → σ → Res σ Unit) (ul : β → σ → Res σ Unit) (dplan : α → List Op)
    (uplan : β → List Op) (dls : List α) (uls : List β) (w : σ)
    (hconn : (connect w).val = .ok () → transfers (connect w).log = [] ∧
      ∀ op ∈ (connect w).defers, op.isClose = true)
    (hdl : ∀ j w, (dl j w).val = .ok () → transfers (dl j w).log = dplan j)
    (hul : ∀ j w, (ul j w).val = .ok () → transfers (ul j w).log = uplan j)
    (hdd : ∀ j w, ∀ op ∈ (dl j w).defers, op.isFileClose = true)
    (hud : ∀ j w, ∀ op ∈ (ul j w).defers, op.isFileClose = true)
    (h : (finish C (step connect (fun _ => step (runJobs dl dls)
      (fun _ => runJobs ul uls)) w)).val = .ok ()) :
    transfers (finish C (step connect (fun _ => step (runJobs dl dls)
      (fun _ => runJobs ul uls)) w)).log = (dls.map dplan).flatten ++ (uls.map uplan).flatten := by
  have h0 : (step connect (fun _ => step (runJobs dl dls) (fun _ => runJobs ul uls)) w).val
      = .ok () := h
  obtain ⟨_, hc, hj, hlog, _, hdef⟩ := step_ok_inv h0
  obtain ⟨_, hd, hu, hlog2, _, hdef2⟩ := step_ok_inv hj
  simp only [finish, transfers_append, hlog, hlog2, hdef, hdef2]
  rw [(hconn hc).1, runJobs_transfers dl dplan hdl _ _ hd, runJobs_transfers ul uplan hul _ _ hu,
    transfers_runCalls]
  · simp
  · intro op hop
    simp only [List.mem_reverse, List.mem_append] at hop
    rcases hop with hop | hop | hop
    · exact (hconn hc).2 op hop
    · exact Op.isClose_of_isFileClose _
        (runJobs_defers dl (fun op => op.isFileClose = true) hdd _ _ op hop)
    · exact Op.isClose_of_isFileClose _
        (runJobs_defers ul (fun op => op.isFileClose = true) hud _ _ op hop)

/-! ## A returned error was returned by a logged call -/

theorem step_blames (m : σ → Res σ α) (k : α → σ → Res σ β) (w : σ)
    (hm : ∀ e, (m w).val = .error e → ∃ x ∈ (m w).log, x.err = some e)
    (hk : ∀ a w1 e, (k a w1).val = .error e → ∃ x ∈ (k a w1).log, x.err = some e) :
    ∀ e, (step m k w).val = .error e → ∃ x ∈ (step m k w).log, x.err = some e := by
  intro e h
  cases ha : (m w).val with
  | error e1 =>
    rw [step_of_error ha] at h ⊢
    cases h
    exact hm _ ha
  | ok a =>
    rw [step_of_ok ha] at h ⊢
    obtain ⟨x, hx, hxe⟩ := hk a _ e h
    exact ⟨x, List.mem_append_right _ hx, hxe⟩

theorem runJobs_blames (job : α → σ → Res σ Unit)
    (hjob : ∀ j w e, (job j w).val = .error e → ∃ x ∈ (job j w).log, x.err = some e) :
    ∀ (js : List α) (w : σ) (e : Err), (runJobs job js w).val = .error e →
      ∃ x ∈ (runJobs job js w).log, x.err = some e := by
  intro js
  induction js with
  | nil => intro w e h; simp [runJobs, done] at h
  | cons j js ih =>
    intro w e h
    exact step_blames (job j) (fun _ => runJobs job js) w (hjob j w) (fun _ w1 e1 => ih w1 e1) e h

theorem JobLaws.blames {job : α → σ → Res σ Unit} (h : JobLaws job) :
    ∀ j w e, (job j w).val = .error e → ∃ x ∈ (job j w).log, x.err = some e := by
  intro j w e he
  obtain ⟨pre, op, tail, hlog, _⟩ := h.fail_log j w e he
  exact ⟨⟨op, some e⟩, by rw [hlog]; simp, rfl⟩

theorem ftpConnect_blames (C : Collab σ) (c : Config) (w : σ) :
    ∀ e, (ftpConnect C c w).val = .error e → ∃ x ∈ (ftpConnect C c w).log, x.err = some e := by
  intro e h
  rcases ftpConnect_cases C c w with ⟨e1, _, hv, _, hl⟩ | ⟨e1, _, hv, _, hl⟩ | ⟨_, hv, _⟩
  · rw [hv] at h; cases h
    exact ⟨⟨ftpDialOp c, some e⟩, by rw [hl]; simp, rfl⟩
  · rw [hv] at h; cases h
    exact ⟨⟨.ftpLogin c.User c.Password, some e⟩, by rw [hl]; simp, rfl⟩
  · rw [hv] at h; cases h

theorem sftpConnect_blames (C : Collab σ) (c : Config) (w : σ) :
    ∀ e, (sftpConnect C c w).val = .error e →
      ∃ x ∈ (sftpConnect C c w).log, x.err = some e := by
  intro e h
  rcases sftpConnect_cases C c w with ⟨e1, _, hv, _, hl⟩ | ⟨e1, _, _, hv, _, hl⟩ |
    ⟨_, _, hv, _⟩
  · rw [hv] at h; cases h
    exact ⟨⟨sshDialOp c, some e⟩, by rw [hl]; simp, rfl⟩
  · rw [hv] at h; cases h
    exact ⟨⟨.sftpNewClient, some e⟩, by rw [hl]; simp, rfl⟩
  · rw [hv] at h; cases h

/-- A handler in whose log no call failed returned no error. -/
theorem handler_ok_of_no_failure (C : Collab σ) (connect : σ → Res σ Unit)
    (dl : α → σ → Res σ Unit) (ul : β → σ → Res σ Unit) (dls : List α) (uls : List β) (w : σ)
    (hconn : ∀ e, (connect w).val = .error e → ∃ x ∈ (connect w).log, x.err = some e)
    (hdl : ∀ j w e, (dl j w).val = .error e → ∃ x ∈ (dl j w).log, x.err = some e)
    (hul : ∀ j w e, (ul j w).val = .error e → ∃ x ∈ (ul j w).log, x.err = some e)
    (h : ∀ x ∈ (finish C (step connect (fun _ => step (runJobs dl dls)
      (fun _ => runJobs ul uls)) w)).log, x.err = none) :
    (finish C (step connect (fun _ => step (runJobs dl dls)
      (fun _ => runJobs ul uls)) w)).val = .ok () := by
  cases hv : (step connect (fun _ => step (runJobs dl dls) (fun _ => runJobs ul uls)) w).val with
  | ok u => exact hv
  | error e =>
    obtain ⟨x, hx, hxe⟩ := step_blames connect
      (fun _ => step (runJobs dl dls) (fun _ => runJobs ul uls)) w hconn
      (fun _ w1 => step_blames (runJobs dl dls) (fun _ => runJobs ul uls) w1
        (runJobs_blames dl hdl dls w1) (fun _ w2 => runJobs_blames ul hul uls w2)) e hv
    have hn := h x (by simp only [finish]; exact List.mem_append_left _ hx)
    rw [hn] at hxe
    cases hxe

/-! ## Where remove calls can stand -/

section Guard

variable (dls : List DownloadJob) (uls : List UploadJob)
  (dplan : DownloadJob → List Op) (uplan : UploadJob → List Op)

end Guard

theorem ftpConnect_ops (C : Collab σ) (c : Config) (w : σ) :
    (∀ y ∈ (ftpConnect C c w).log, y.op.isDelete = false ∧ y.op.isFileClose = false) ∧
    (∀ op ∈ (ftpConnect C c w).defers, op.isClose = true) := by
  rcases ftpConnect_cases C c w with ⟨e, _, _, hd, hl⟩ | ⟨e, _, _, hd, hl⟩ | ⟨_, _, hd, hl⟩ <;>
  simp [hd, hl, Op.isDelete, Op.isFileClose, Op.isClose, ftpDialOp]

theorem sftpConnect_ops (C : Collab σ) (c : Config) (w : σ) :
    (∀ y ∈ (sftpConnect C c w).log, y.op.isDelete = false ∧ y.op.isFileClose = false) ∧
    (∀ op ∈ (sftpConnect C c w).defers, op.isClose = true) := by
  rcases sftpConnect_cases C c w with ⟨e, _, _, hd, hl⟩ | ⟨e, _, _, _, hd, hl⟩ |
    ⟨_, _, _, hd, hl⟩ <;>
  simp [hd, hl, Op.isDelete, Op.isFileClose, Op.isClose, sshDialOp]

theorem sftpDownloadMsg_names_step (k1 k2 : DownloadStep) (e1 e2 : Err)
    (h : sftpDownloadMsg k1 e1 = sftpDownloadMsg k2 e2) : k1 = k2 := by
  have hd := congrArg String.data h
  cases k1 <;> cases k2 <;> first
    | rfl
    | (exfalso
       simp only [sftpDownloadMsg, String.data_append] at hd
       have h8 := congrArg (List.take 8) hd
       simp [List.take] at h8)

theorem printed_append (l1 l2 : List Event) : printed (l1 ++ l2) = printed l1 ++ printed l2 := by
  simp [printed]

theorem printed_eq_nil (l : List Event) (h : ∀ x ∈ l, x.op.isPrint = false) :
    printed l = [] := by
  induction l with
  | nil => rfl
  | cons a l ih =>
    have ha := h a (by simp)
    have hl := ih (fun x hx => h x (by simp [hx]))
    cases hop : a.op <;> simp_all [printed, Op.isPrint]

theorem Op.not_print_of_isTransfer (op : Op) (h : op.isTransfer = true) :
    op.isPrint = false := by
  cases op <;> simp [Op.isPrint, Op.isTransfer] at h ⊢

theorem Op.not_print_of_isClose (op : Op) (h : op.isClose = true) : op.isPrint = false := by
  cases op <;> simp [Op.isPrint, Op.isClose] at h ⊢

theorem firstFailure_append (before post : List Event) (op : Op) (e : Err)
    (h : ∀ x ∈ before, x.err = none) :
    firstFailure (before ++ ⟨op, some e⟩ :: post) = some ⟨op, some e⟩ := by
  induction before with
  | nil => simp [firstFailure]
  | cons a l ih =>
    have ha := h a (by simp)
    have hl := ih (fun x hx => h x (by simp [hx]))
    simp only [firstFailure, List.cons_append, List.find?, ha, Option.isSome_none] at hl ⊢
    exact hl

theorem ftpDownload_report (C : Collab σ) (j : DownloadJob) (w : σ) (e : Err)
    (h : (ftpDownload C j w).val = .error e) :
    ∃ pre op k tail, (ftpDownload C j w).log = pre ++ ⟨op, some e⟩ :: tail ∧
      (∀ x ∈ pre, x.err = none) ∧ op.downloadStep = some k ∧
      printed (ftpDownload C j w).log = [] := by
  rcases (ftpDownload_cases C j w).2 with ⟨e1, hv, hl⟩ | ⟨e1, _, hv, hl⟩ |
    ⟨e1, _, _, hv, hl⟩ | ⟨e1, _, _, hv, _, hl⟩ | ⟨_, _, hv, _⟩ | ⟨_, _, hv, _⟩
  · rw [hv] at h; cases h
    exact ⟨[], _, .openRemote, [], by rw [hl]; rfl, by simp, by rfl, by rw [hl]; rfl⟩
  · rw [hv] at h; cases h
    exact ⟨[_], _, .copy, [], by rw [hl]; rfl, by simp, by rfl, by rw [hl]; rfl⟩
  · rw [hv] at h; cases h
    exact ⟨[_, _], _, .createLocal, [], by rw [hl]; rfl, by simp, by rfl, by rw [hl]; rfl⟩
  · rw [hv] at h; cases h
    exact ⟨[_, _, _], _, .deleteRemote, [], by rw [hl]; rfl, by simp, by rfl, by rw [hl]; rfl⟩
  · rw [hv] at h; cases h
  · rw [hv] at h; cases h

theorem sftpDownload_report (C : Collab σ) (j : DownloadJob) (w : σ) (e : Err)
    (h : (sftpDownload C j w).val = .error e) :
    ∃ pre op k tail, (sftpDownload C j w).log = pre ++ ⟨op, some e⟩ :: tail ∧
      (∀ x ∈ pre, x.err = none) ∧ op.downloadStep = some k ∧
      printed (sftpDownload C j w).log = [sftpDownloadMsg k e] := by
  rcases sftpDownload_cases C j w with ⟨e1, hv, _, hl⟩ | ⟨e1, _, hv, _, hl⟩ |
    ⟨e1, _, _, hv, _, hl⟩ | ⟨e1, _, _, hv, _, _, hl⟩ | ⟨_, _, hv, _⟩ | ⟨_, _, hv, _⟩
  · rw [hv] at h; cases h
    exact ⟨[], _, .openRemote, [_], by rw [hl]; rfl, by simp, by rfl, by rw [hl]; rfl⟩
  · rw [hv] at h; cases h
    exact ⟨[_], _, .createLocal, [_], by rw [hl]; rfl, by simp, by rfl, by rw [hl]; rfl⟩
  · rw [hv] at h; cases h
    exact ⟨[_, _], _, .copy, [_], by rw [hl]; rfl, by simp, by rfl, by rw [hl]; rfl⟩
  · rw [hv] at h; cases h
    exact ⟨[_, _, _], _, .deleteRemote, [_], by rw [hl]; rfl, by simp, by rfl, by rw [hl]; rfl⟩
  · rw [hv] at h; cases h
  · rw [hv] at h; cases h

/-- A handler that fails in download job `N`: the first failing call of its log
and everything it prints. -/
theorem report_of_fail (C : Collab σ) (connect rest : σ → Res σ Unit)
    (dl : α → σ → Res σ Unit) (dls : List α) (w : σ) (N : Nat) (j : α) (e : Err)
    (report : DownloadStep → Err → List String)
    (hdl : JobLaws dl)
    (hrep : ∀ j w e, (dl j w).val = .error e →
      ∃ pre op k tail, (dl j w).log = pre ++ ⟨op, some e⟩ :: tail ∧
        (∀ x ∈ pre, x.err = none) ∧ op.downloadStep = some k ∧
        printed (dl j w).log = report k e)
    (hc : ∀ x ∈ (connect w).log, x.err = none)
    (hcd : ∀ op ∈ (connect w).defers, op.isClose = true)
    (h0 : (connect w).val = .ok ())
    (h1 : (runJobs dl (dls.take N) (connect w).world).val = .ok ())
    (hj : dls[N]? = some j)
    (hf : (dl j (runJobs dl (dls.take N) (connect w).world).world).val = .error e) :
    ∃ op k,
      firstFailure (finish C (step connect (fun _ => step (runJobs dl dls)
        (fun _ => rest)) w)).log = some ⟨op, some e⟩ ∧
      op.downloadStep = some k ∧
      printed (finish C (step connect (fun _ => step (runJobs dl dls)
        (fun _ => rest)) w)).log = printed (connect w).log ++ report k e := by
  rw [body_fail_in_download connect rest dl dls w N j e h0 h1 hj hf]
  obtain ⟨pre, op, k, tail, hlog, hpre, hk, hpr⟩ := hrep j _ e hf
  have hprev := runJobs_ok_log dl (fun x => x.err = none ∧ x.op.isTransfer = true)
    hdl.ok_log _ _ h1
  refine ⟨op, k, ?_, hk, ?_⟩
  · simp only [finish, hlog]
    rw [show ∀ (a b c d z : List Event) (x : Event),
        a ++ (b ++ (c ++ x :: d)) ++ z = (a ++ b ++ c) ++ x :: (d ++ z) from by
      intros; simp]
    apply firstFailure_append
    intro x hx
    rcases List.mem_append.1 hx with hx | hx
    · rcases List.mem_append.1 hx with hx | hx
      · exact hc x hx
      · exact (hprev x hx).1
    · exact hpre x hx
  · simp only [finish, printed_append, hpr]
    rw [printed_eq_nil _ (fun x hx => Op.not_print_of_isTransfer _ (hprev x hx).2),
      printed_eq_nil (runCalls C _ _).2]
    · simp
    · intro x hx
      have hm := runCalls_mem_op C _ _ x hx
      simp only [List.mem_reverse, List.mem_append] at hm
      apply Op.not_print_of_isClose
      rcases hm with hm | hm | hm
      · exact hcd _ hm
      · exact Op.isClose_of_isFileClose _
          (runJobs_defers dl (fun op => op.isFileClose = true) hdl.defers_close _ _ _ hm)
      · exact Op.isClose_of_isFileClose _ (hdl.defers_close _ _ _ hm)

/-! ## The handlers over the stores -/

theorem ftpDownload_effect (j : DownloadJob) (s : Stores)
    (h : (ftpDownload storeCollab j s).val = .ok ()) :
    DownloadEffect j s (ftpDownload storeCollab j s).world := by
  cases hR : s.remote j.RemotePath with
  | none =>
    simp [ftpDownload, step, acquire, storeCollab, Stores.openRemote, hR] at h
  | some b =>
    refine ⟨b, hR, ?_, ?_⟩
    · intro p
      cases hd : j.DeleteRemoteFileAfterDownload <;>
      simp [ftpDownload, step, acquire, readAll, call, done, storeCollab, Stores.openRemote,
        Stores.removeRemote, Store.set, hR, hd]
    · intro p
      cases hd : j.DeleteRemoteFileAfterDownload <;>
      simp [ftpDownload, step, acquire, readAll, call, done, storeCollab, Stores.openRemote,
        Stores.removeRemote, Store.set, hR, hd]

theorem getElem_append_pair_fst {γ : Type} (l : List γ) (a b : γ)
    (h : l.length < (l ++ [a, b]).length) : (l ++ [a, b])[l.length] = a := by
  simp [List.getElem_append_right]

theorem getElem_append_pair_snd {γ : Type} (l : List γ) (a b : γ)
    (h : l.length + 1 < (l ++ [a, b]).length) : (l ++ [a, b])[l.length + 1] = b := by
  simp [List.getElem_append_right]
theorem ftpUpload_effect (u : UploadJob) (s : Stores)
    (h : (ftpUpload storeCollab u s).val = .ok ()) :
    UploadEffect u s (ftpUpload storeCollab u s).world := by
  cases hL : s.disk u.LocalPath with
  | none =>
    simp [ftpUpload, step, acquire, storeCollab, Stores.openDisk, hL] at h
  | some b =>
    refine ⟨b, hL, ?_, ?_⟩
    · intro p
      cases hd : u.DeleteLocalFileAfterUpload <;>
      simp [ftpUpload, step, acquire, call, done, storeCollab, Stores.openDisk,
        Stores.removeDisk, Store.set, hL, hd]
    · intro p
      cases hd : u.DeleteLocalFileAfterUpload <;>
      simp [ftpUpload, step, acquire, call, done, storeCollab, Stores.openDisk,
        Stores.removeDisk, Store.set, hL, hd]

theorem sftpDownload_effect (j : DownloadJob) (s : Stores)
    (h : (sftpDownload storeCollab j s).val = .ok ()) :
    DownloadEffect j s (sftpDownload storeCollab j s).world := by
  cases hR : s.remote j.RemotePath with
  | none =>
    simp [sftpDownload, step, reported, acquire, storeCollab, Stores.openRemote, hR] at h
  | some b =>
    refine ⟨b, hR, ?_, ?_⟩
    · intro p
      cases hd : j.DeleteRemoteFileAfterDownload <;>
      simp [sftpDownload, step, reported, acquire, defer, call, done, storeCollab,
        Stores.openRemote, Stores.removeRemote, Store.set, hR, hd,
        getElem_append_pair_fst, getElem_append_pair_snd] <;>
      by_cases hp : p = j.LocalPath <;> simp [hp]
    · intro p
      cases hd : j.DeleteRemoteFileAfterDownload <;>
      simp [sftpDownload, step, reported, acquire, defer, call, done, storeCollab,
        Stores.openRemote, Stores.removeRemote, Store.set, hR, hd,
        getElem_append_pair_fst, getElem_append_pair_snd]

theorem sftpUpload_effect (u : UploadJob) (s : Stores)
    (h : (sftpUpload storeCollab u s).val = .ok ()) :
    UploadEffect u s (sftpUpload storeCollab u s).world := by
  cases hL : s.disk u.LocalPath with
  | none =>
    simp [sftpUpload, step, reported, acquire, storeCollab, Stores.openDisk, hL] at h
  | some b =>
    refine ⟨b, hL, ?_, ?_⟩
    · intro p
      cases hd : u.DeleteLocalFileAfterUpload <;>
      simp [sftpUpload, step, reported, acquire, defer, call, done, storeCollab,
        Stores.openDisk, Stores.removeDisk, Store.set, hL, hd,
        getElem_append_pair_fst, getElem_append_pair_snd] <;>
      by_cases hp : p = u.RemotePath <;> simp [hp]
    · intro p
      cases hd : u.DeleteLocalFileAfterUpload <;>
      simp [sftpUpload, step, reported, acquire, defer, call, done, storeCollab,
        Stores.openDisk, Stores.removeDisk, Store.set, hL, hd,
        getElem_append_pair_fst, getElem_append_pair_snd]

theorem runJobs_append_ok (job : α → σ → Res σ Unit) (xs ys : List α) :
    ∀ (w : σ), (runJobs job (xs ++ ys) w).val = .ok () →
      (runJobs job xs w).val = .ok () ∧
      (runJobs job ys (runJobs job xs w).world).val = .ok () ∧
      (runJobs job (xs ++ ys) w).world = (runJobs job ys (runJobs job xs w).world).world := by
  induction xs with
  | nil => intro w h; exact ⟨rfl, h, rfl⟩
  | cons x xs ih =>
    intro w h
    obtain ⟨h1, h2, h3⟩ := runJobs_ok_cons job x (xs ++ ys) w h
    obtain ⟨i1, i2, i3⟩ := ih _ h2
    have hx : runJobs job (x :: xs) w = ⟨(runJobs job xs (job x w).world).val,
        (runJobs job xs (job x w).world).world,
        (job x w).log ++ (runJobs job xs (job x w).world).log,
        (job x w).defers ++ (runJobs job xs (job x w).world).defers⟩ := by
      simp only [runJobs]
      rw [step_of_ok h1]
    rw [List.cons_append, h3, hx]
    exact ⟨i1, i2, i3⟩

theorem runCalls_store_close (ops : List Op) (h : ∀ op ∈ ops, op.isClose = true) :
    ∀ s : Stores, (runCalls storeCollab ops s).1 = s := by
  induction ops with
  | nil => intro s; rfl
  | cons op ops ih =>
    intro s
    have hop := h op (by simp)
    have hs : (storeCollab.call op s).2 = s := by
      cases op <;> simp [Op.isClose] at hop <;> rfl
    simp only [runCalls, hs]
    exact ih (fun o ho => h o (by simp [ho])) s

theorem ftpConnect_store (c : Config) (s : Stores) : (ftpConnect storeCollab c s).world = s := by
  simp [ftpConnect, step, print, call, defer, storeCollab, ftpDialOp]

theorem sftpConnect_store (c : Config) (s : Stores) :
    (sftpConnect storeCollab c s).world = s := by
  simp [sftpConnect, step, call, defer, storeCollab, sshDialOp]

/-- Download jobs only ever remove remote files, and write only their own local paths. -/
theorem downloads_stores (dl : DownloadJob → Stores → Res Stores Unit)
    (hdl : ∀ j s, (dl j s).val = .ok () → DownloadEffect j s (dl j s).world) :
    ∀ (js : List DownloadJob) (s : Stores), (runJobs dl js s).val = .ok () →
      (∀ p, (runJobs dl js s).world.remote p = none ∨
        (runJobs dl js s).world.remote p = s.remote p) ∧
      (∀ p, (∀ j ∈ js, j.LocalPath ≠ p) → (runJobs dl js s).world.disk p = s.disk p) := by
  intro js
  induction js with
  | nil => intro s _; exact ⟨fun _ => Or.inr rfl, fun _ _ => rfl⟩
  | cons j js ih =>
    intro s h
    obtain ⟨h1, h2, h3⟩ := runJobs_ok_cons dl j js s h
    obtain ⟨b, _, hdisk, hrem⟩ := hdl j s h1
    obtain ⟨i1, i2⟩ := ih _ h2
    rw [h3]
    constructor
    · intro p
      rcases i1 p with hp | hp
      · exact Or.inl hp
      · simp only [hp, hrem p]
        split
        · exact Or.inl rfl
        · exact Or.inr rfl
    · intro p hp
      simp only
      rw [i2 p (fun j1 hj1 => hp j1 (by simp [hj1])), hdisk p]
      have : p ≠ j.LocalPath := fun hpe => hp j (by simp) hpe.symm
      simp [this]

/-- Upload jobs write only their own remote paths and remove only their own
local files, and only when asked to. -/
theorem uploads_stores (ul : UploadJob → Stores → Res Stores Unit)
    (hul : ∀ u s, (ul u s).val = .ok () → UploadEffect u s (ul u s).world) :
    ∀ (us : List UploadJob) (s : Stores), (runJobs ul us s).val = .ok () →
      (∀ p, (∀ u ∈ us, u.RemotePath ≠ p) → (runJobs ul us s).world.remote p = s.remote p) ∧
      (∀ p, (∀ u ∈ us, u.DeleteLocalFileAfterUpload = true → u.LocalPath ≠ p) →
        (runJobs ul us s).world.disk p = s.disk p) := by
  intro us
  induction us with
  | nil => intro s _; exact ⟨fun _ _ => rfl, fun _ _ => rfl⟩
  | cons u us ih =>
    intro s h
    obtain ⟨h1, h2, h3⟩ := runJobs_ok_cons ul u us s h
    obtain ⟨b, _, hrem, hdisk⟩ := hul u s h1
    obtain ⟨i1, i2⟩ := ih _ h2
    rw [h3]
    constructor
    · intro p hp
      simp only
      rw [i1 p (fun u1 hu1 => hp u1 (by simp [hu1])), hrem p]
      have : p ≠ u.RemotePath := fun hpe => hp u (by simp) hpe.symm
      simp [this]
    · intro p hp
      simp only
      rw [i2 p (fun u1 hu1 hf => hp u1 (by simp [hu1]) hf), hdisk p]
      have : ¬ (u.DeleteLocalFileAfterUpload = true ∧ p = u.LocalPath) :=
        fun hpe => hp u (by simp) hpe.1 hpe.2.symm
      simp [this]

/-- A handler over the stores that returns no error ran both loops without error,
and leaves the stores as the upload loop left them. -/
theorem handler_stores (connect : Stores → Res Stores Unit)
    (dl : DownloadJob → Stores → Res Stores Unit) (ul : UploadJob → Stores → Res Stores Unit)
    (dls : List DownloadJob) (uls : List UploadJob) (s : Stores)
    (hconn : (connect s).world = s) (hcd : ∀ op ∈ (connect s).defers, op.isClose = true)
    (hdd : ∀ j w, ∀ op ∈ (dl j w).defers, op.isFileClose = true)
    (hud : ∀ j w, ∀ op ∈ (ul j w).defers, op.isFileClose = true)
    (h : (finish storeCollab (step connect (fun _ => step (runJobs dl dls)
      (fun _ => runJobs ul uls)) s)).val = .ok ()) :
    (runJobs dl dls s).val = .ok () ∧
    (runJobs ul uls (runJobs dl dls s).world).val = .ok () ∧
    (finish storeCollab (step connect (fun _ => step (runJobs dl dls)
      (fun _ => runJobs ul uls)) s)).world = (runJobs ul uls (runJobs dl dls s).world).world := by
  have h0 : (step connect (fun _ => step (runJobs dl dls) (fun _ => runJobs ul uls)) s).val
      = .ok () := h
  obtain ⟨_, _, hj, _, hw, hdef⟩ := step_ok_inv h0
  obtain ⟨_, hd, hu, _, hw2, hdef2⟩ := step_ok_inv hj
  rw [hconn] at hd hu hw2 hdef2 hw hdef
  refine ⟨hd, hu, ?_⟩
  simp only [finish]
  rw [runCalls_store_close, hw, hw2]
  intro op hop
  rw [List.mem_reverse, hdef, hdef2] at hop
  simp only [List.mem_append] at hop
  rcases hop with hop | hop | hop
  · exact hcd op hop
  · exact Op.isClose_of_isFileClose _
      (runJobs_defers dl (fun op => op.isFileClose = true) hdd _ _ op hop)
  · exact Op.isClose_of_isFileClose _
      (runJobs_defers ul (fun op => op.isFileClose = true) hud _ _ op hop)

/-- A deleting download job of a handler over the stores, when no later download
writes its local path and no upload writes its remote path or removes its local
file. -/
theorem handler_download_delete (connect : Stores → Res Stores Unit)
    (dl : DownloadJob → Stores → Res Stores Unit) (ul : UploadJob → Stores → Res Stores Unit)
    (dls : List DownloadJob) (uls : List UploadJob) (s : Stores)
    (before after : List DownloadJob) (j : DownloadJob)
    (hdl : ∀ j s, (dl j s).val = .ok () → DownloadEffect j s (dl j s).world)
    (hul : ∀ u s, (ul u s).val = .ok () → UploadEffect u s (ul u s).world)
    (hconn : (connect s).world = s) (hcd : ∀ op ∈ (connect s).defers, op.isClose = true)
    (hdd : ∀ j w, ∀ op ∈ (dl j w).defers, op.isFileClose = true)
    (hud : ∀ j w, ∀ op ∈ (ul j w).defers, op.isFileClose = true)
    (hsplit : dls = before ++ j :: after)
    (hflag : j.DeleteRemoteFileAfterDownload = true)
    (hafter : ∀ d ∈ after, d.LocalPath ≠ j.LocalPath)
    (hup1 : ∀ u ∈ uls, u.RemotePath ≠ j.RemotePath)
    (hup2 : ∀ u ∈ uls, u.DeleteLocalFileAfterUpload = true → u.LocalPath ≠ j.LocalPath)
    (h : (finish storeCollab (step connect (fun _ => step (runJobs dl dls)
      (fun _ => runJobs ul uls)) s)).val = .ok ()) :
    (finish storeCollab (step connect (fun _ => step (runJobs dl dls)
      (fun _ => runJobs ul uls)) s)).world.remote j.RemotePath = none ∧
    (finish storeCollab (step connect (fun _ => step (runJobs dl dls)
      (fun _ => runJobs ul uls)) s)).world.disk j.LocalPath = s.remote j.RemotePath ∧
    (s.remote j.RemotePath).isSome = true := by
  obtain ⟨hd, hu, hw⟩ := handler_stores connect dl ul dls uls s hconn hcd hdd hud h
  rw [hw]
  obtain ⟨u1, u2⟩ := uploads_stores ul hul uls _ hu
  rw [u1 _ hup1, u2 _ hup2]
  subst hsplit
  obtain ⟨a1, a2, a3⟩ := runJobs_append_ok dl before (j :: after) s hd
  rw [a3]
  obtain ⟨c1, c2, c3⟩ := runJobs_ok_cons dl j after _ a2
  rw [c3]
  simp only
  obtain ⟨b, e1, e2, e3⟩ := hdl j _ c1
  obtain ⟨p1, _⟩ := downloads_stores dl hdl before s a1
  obtain ⟨q1, q2⟩ := downloads_stores dl hdl after _ c2
  have hs : s.remote j.RemotePath = some b := by
    rcases p1 j.RemotePath with hp | hp
    · rw [hp] at e1; cases e1
    · rw [← hp]; exact e1
  refine ⟨?_, ?_, by rw [hs]; rfl⟩
  · rcases q1 j.RemotePath with hq | hq
    · exact hq
    · rw [hq, e3]; simp [hflag]
  · rw [q2 _ hafter, e2, hs]; simp

/-- Uploading `L` to `R` and then, in a second run, downloading `R` to `L2`. -/
theorem handler_round_trip (connect1 connect2 : Stores → Res Stores Unit)
    (dl : DownloadJob → Stores → Res Stores Unit) (ul : UploadJob → Stores → Res Stores Unit)
    (s : Stores) (L R L2 : String) (delete : Bool)
    (hdl : ∀ j s, (dl j s).val = .ok () → DownloadEffect j s (dl j s).world)
    (hul : ∀ u s, (ul u s).val = .ok () → UploadEffect u s (ul u s).world)
    (hconn1 : ∀ s, (connect1 s).world = s) (hconn2 : ∀ s, (connect2 s).world = s)
    (hcd1 : ∀ s, ∀ op ∈ (connect1 s).defers, op.isClose = true)
    (hcd2 : ∀ s, ∀ op ∈ (connect2 s).defers, op.isClose = true)
    (hdd : ∀ j w, ∀ op ∈ (dl j w).defers, op.isFileClose = true)
    (hud : ∀ j w, ∀ op ∈ (ul j w).defers, op.isFileClose = true)
    (h1 : (finish storeCollab (step connect1 (fun _ => step (runJobs dl [])
      (fun _ => runJobs ul [⟨L, R, false⟩])) s)).val = .ok ())
    (h2 : (finish storeCollab (step connect2 (fun _ => step (runJobs dl [⟨L2, R, delete⟩])
      (fun _ => runJobs ul [])) (finish storeCollab (step connect1 (fun _ => step (runJobs dl [])
        (fun _ => runJobs ul [⟨L, R, false⟩])) s)).world)).val = .ok ()) :
    (finish storeCollab (step connect2 (fun _ => step (runJobs dl [⟨L2, R, delete⟩])
      (fun _ => runJobs ul [])) (finish storeCollab (step connect1 (fun _ => step (runJobs dl [])
        (fun _ => runJobs ul [⟨L, R, false⟩])) s)).world)).world.disk L2 = s.disk L ∧
    (s.disk L).isSome = true := by
  obtain ⟨_, hu, hw⟩ := handler_stores connect1 dl ul [] [⟨L, R, false⟩] s (hconn1 s) (hcd1 s)
    hdd hud h1
  obtain ⟨c1, _, c3⟩ := runJobs_ok_cons ul ⟨L, R, false⟩ [] _ hu
  have c1s : (ul ⟨L, R, false⟩ s).val = .ok () := c1
  have ht : (finish storeCollab (step connect1 (fun _ => step (runJobs dl [])
      (fun _ => runJobs ul [⟨L, R, false⟩])) s)).world = (ul ⟨L, R, false⟩ s).world := by
    rw [hw, c3]; rfl
  rw [ht] at h2 ⊢
  obtain ⟨hd2, _, hw2⟩ := handler_stores connect2 dl ul [⟨L2, R, delete⟩] [] _ (hconn2 _)
    (hcd2 _) hdd hud h2
  obtain ⟨d1, _, d3⟩ := runJobs_ok_cons dl ⟨L2, R, delete⟩ [] _ hd2
  rw [hw2, d3]
  show (dl ⟨L2, R, delete⟩ (ul ⟨L, R, false⟩ s).world).world.disk L2 = s.disk L ∧ _
  obtain ⟨b, e1, e2, _⟩ := hul _ _ c1s
  obtain ⟨b2, f1, f2, _⟩ := hdl _ _ d1
  simp only at e1 e2 f1 f2
  rw [e2 R] at f1
  simp only [if_true] at f1
  rw [f2 L2, e1, ← f1]
  simp

end Lemmas
/-! ## Protocol selection -/

/-- C1: for a configuration whose `Protocol` is neither exactly "ftp" nor exactly
"sftp", `selectProtocol` returns the invalid-protocol error and does nothing
else: its log is empty (no dial, login, file or remote operation, not even
output), it defers nothing and leaves the world as it found it. -/
theorem selectProtocol_invalid {σ : Type} (C : Collab σ) (f : Config) (w : σ)
    (hftp : f.Protocol ≠ "ftp") (hsftp : f.Protocol ≠ "sftp") :
    (selectProtocol C f w).err = some "Invalid protocol, protocol should be ftp or sftp" ∧
    (selectProtocol C f w).log = [] ∧ (selectProtocol C f w).defers = [] ∧
    (selectProtocol C f w).world = w := by
  simp [selectProtocol, hftp, hsftp, Res.err]

/-- The error of C1 on the protocol strings "", "FTP" and "sftp ". -/
theorem selectProtocol_invalid_witness :
    ((selectProtocol allOk (sampleConfig "") 0).log = [] ∧
      (selectProtocol allOk (sampleConfig "") 0).err =
        some "Invalid protocol, protocol should be ftp or sftp") ∧
    ((selectProtocol allOk (sampleConfig "FTP") 0).log = [] ∧
      (selectProtocol allOk (sampleConfig "FTP") 0).err =
        some "Invalid protocol, protocol should be ftp or sftp") ∧
    ((selectProtocol allOk (sampleConfig "sftp ") 0).log = [] ∧
      (selectProtocol allOk (sampleConfig "sftp ") 0).err =
        some "Invalid protocol, protocol should be ftp or sftp") :=
  ⟨⟨(selectProtocol_invalid allOk (sampleConfig "") 0 (by decide) (by decide)).2.1,
    (selectProtocol_invalid allOk (sampleConfig "") 0 (by decide) (by decide)).1⟩,
   ⟨(selectProtocol_invalid allOk (sampleConfig "FTP") 0 (by decide) (by decide)).2.1,
    (selectProtocol_invalid allOk (sampleConfig "FTP") 0 (by decide) (by decide)).1⟩,
   ⟨(selectProtocol_invalid allOk (sampleConfig "sftp ") 0 (by decide) (by decide)).2.1,
    (selectProtocol_invalid allOk (sampleConfig "sftp ") 0 (by decide) (by decide)).1⟩⟩

/-! ## Abort on the first failure -/

/-- C2: in either handler, when connecting and download jobs `0 .. N-1` succeed
and download job `N` fails with `e`, the handler returns `e`, and its log is the
log of connecting and of jobs `0 .. N-1` (left as they were, all calls
successful), then the successful calls of job `N`, then the transfer call that
returned `e`, and after that call only closes of sessions and handles and
output: no transfer call of a later download job or of any upload job. -/
theorem abort_on_download_failure {σ : Type} (C : Collab σ) (config : Config) (w : σ)
    (N : Nat) (e : Err) :
    (FtpFailsInDownload C config w N e →
      (ftpProtocol C config w).err = some e ∧
      StopsAt (ftpProtocol C config w).log
        ((ftpConnect C config w).log ++
          (runJobs (ftpDownload C) (config.FilesToDownload.take N)
            (ftpConnect C config w).world).log) e) ∧
    (SftpFailsInDownload C config w N e →
      (sftpProtocol C config w).err = some e ∧
      StopsAt (sftpProtocol C config w).log
        ((sftpConnect C config w).log ++
          (runJobs (sftpDownload C) (config.FilesToDownload.take N)
            (sftpConnect C config w).world).log) e) := by
  constructor
  · rintro ⟨h0, h1, j, hj, hf⟩
    rw [Res.err_eq_none_iff] at h0 h1
    rw [Res.err_eq_some_iff] at hf ⊢
    have hc := ftpConnect_ok C config w h0
    exact stopsAt_of_fail C (ftpConnect C config) (runJobs (ftpUpload C) config.FilesToUpload)
      (ftpDownload C) config.FilesToDownload w N j e (ftpDownload_laws C)
      (by rw [hc.2]; simp) (by rw [hc.1]; simp [Op.isClose]) h0 h1 hj hf
  · rintro ⟨h0, h1, j, hj, hf⟩
    rw [Res.err_eq_none_iff] at h0 h1
    rw [Res.err_eq_some_iff] at hf ⊢
    have hc := sftpConnect_ok C config w h0
    exact stopsAt_of_fail C (sftpConnect C config)
      (runJobs (sftpUpload C) config.FilesToUpload)
      (sftpDownload C) config.FilesToDownload w N j e (sftpDownload_laws C)
      (by rw [hc.2]; simp) (by rw [hc.1]; simp [Op.isClose]) h0 h1 hj hf

/-- C2 on the sample configuration when the server refuses to delete the second
downloaded file: both handlers return that error. -/
theorem abort_on_download_failure_witness :
    (ftpProtocol failDeleteB (sampleConfig "ftp") 0).err = some "550 denied" ∧
    (sftpProtocol failDeleteB (sampleConfig "sftp") 0).err = some "550 denied" :=
  ⟨((abort_on_download_failure failDeleteB (sampleConfig "ftp") 0 1 "550 denied").1
      ⟨by decide, by decide, ⟨"b.txt", "/srv/b.txt", true⟩, by decide, by decide⟩).1,
   ((abort_on_download_failure failDeleteB (sampleConfig "sftp") 0 1 "550 denied").2
      ⟨by decide, by decide, ⟨"b.txt", "/srv/b.txt", true⟩, by decide, by decide⟩).1⟩

/-! ## Order of execution -/

/-- C3: in either handler, on a run in which no collaborator call fails (every
call of the log returned no error), the handler returns no error and its
transfer operations are exactly those of the download jobs of `FilesToDownload`
in list order, each job once, followed by those of the upload jobs of
`FilesToUpload` in list order, each job once; jobs naming the same paths are
neither merged nor skipped.  The same order holds on every run that returns no
error. -/
theorem transfers_follow_plan {σ : Type} (C : Collab σ) (config : Config) (w : σ) :
    ((∀ x ∈ (ftpProtocol C config w).log, x.err = none) →
      (ftpProtocol C config w).err = none ∧
      transfers (ftpProtocol C config w).log = ftpPlan config) ∧
    ((∀ x ∈ (sftpProtocol C config w).log, x.err = none) →
      (sftpProtocol C config w).err = none ∧
      transfers (sftpProtocol C config w).log = sftpPlan config) ∧
    ((ftpProtocol C config w).err = none →
      transfers (ftpProtocol C config w).log = ftpPlan config) ∧
    ((sftpProtocol C config w).err = none →
      transfers (sftpProtocol C config w).log = sftpPlan config) := by
  have hf : (ftpProtocol C config w).val = .ok () →
      transfers (ftpProtocol C config w).log = ftpPlan config := fun h =>
    handler_transfers C (ftpConnect C config) (ftpDownload C) (ftpUpload C)
      ftpDownloadPlan ftpUploadPlan config.FilesToDownload config.FilesToUpload w
      (fun hc => by
        rw [(ftpConnect_ok C config w hc).1, (ftpConnect_ok C config w hc).2]
        simp [transfers, Op.isTransfer, Op.isClose, ftpDialOp])
      (ftpDownload_transfers C) (ftpUpload_transfers C)
      (ftpDownload_laws C).defers_close (ftpUpload_laws C).defers_close h
  have hs : (sftpProtocol C config w).val = .ok () →
      transfers (sftpProtocol C config w).log = sftpPlan config := fun h =>
    handler_transfers C (sftpConnect C config) (sftpDownload C) (sftpUpload C)
      sftpDownloadPlan sftpUploadPlan config.FilesToDownload config.FilesToUpload w
      (fun hc => by
        rw [(sftpConnect_ok C config w hc).1, (sftpConnect_ok C config w hc).2]
        simp [transfers, Op.isTransfer, Op.isClose, sshDialOp])
      (sftpDownload_transfers C) (sftpUpload_transfers C)
      (sftpDownload_laws C).defers_close (sftpUpload_laws C).defers_close h
  refine ⟨fun h => ?_, fun h => ?_, fun h => hf ((Res.err_eq_none_iff _).1 h),
    fun h => hs ((Res.err_eq_none_iff _).1 h)⟩
  · have hv : (ftpProtocol C config w).val = .ok () :=
      handler_ok_of_no_failure C (ftpConnect C config) (ftpDownload C) (ftpUpload C)
        config.FilesToDownload config.FilesToUpload w (ftpConnect_blames C config w)
        (ftpDownload_laws C).blames (ftpUpload_laws C).blames h
    exact ⟨(Res.err_eq_none_iff _).2 hv, hf hv⟩
  · have hv : (sftpProtocol C config w).val = .ok () :=
      handler_ok_of_no_failure C (sftpConnect C config) (sftpDownload C) (sftpUpload C)
        config.FilesToDownload config.FilesToUpload w (sftpConnect_blames C config w)
        (sftpDownload_laws C).blames (sftpUpload_laws C).blames h
    exact ⟨(Res.err_eq_none_iff _).2 hv, hs hv⟩

/-- C3 on a configuration that lists each job twice, with every call succeeding:
both handlers return no error and every copy of a job is executed. -/
theorem transfers_follow_plan_witness :
    ((ftpProtocol allOk (repeatConfig "ftp") 0).err = none ∧
      transfers (ftpProtocol allOk (repeatConfig "ftp") 0).log =
        [.ftpRetr "/srv/a.txt", .ioReadAll (.ftpResp 0), .osWriteFile "a.txt" [] 0o600,
         .ftpRetr "/srv/a.txt", .ioReadAll (.ftpResp 0), .osWriteFile "a.txt" [] 0o600,
         .osOpen "out.txt", .ftpStor "/srv/out.txt" (.osFile 0),
         .osOpen "out.txt", .ftpStor "/srv/out.txt" (.osFile 0)]) ∧
    ((sftpProtocol allOk (repeatConfig "sftp") 0).err = none ∧
      transfers (sftpProtocol allOk (repeatConfig "sftp") 0).log =
        [.sftpOpen "/srv/a.txt", .osCreate "a.txt", .ioCopy (.osFile 0) (.sftpFile 0),
         .sftpOpen "/srv/a.txt", .osCreate "a.txt", .ioCopy (.osFile 0) (.sftpFile 0),
         .osOpen "out.txt", .sftpCreate "/srv/out.txt", .ioCopy (.sftpFile 0) (.osFile 0),
         .osOpen "out.txt", .sftpCreate "/srv/out.txt", .ioCopy (.sftpFile 0) (.osFile 0)]) :=
  ⟨(transfers_follow_plan allOk (repeatConfig "ftp") 0).1 (by decide),
   (transfers_follow_plan allOk (repeatConfig "sftp") 0).2.1 (by decide)⟩

/-! ## Closing sessions and handles -/

/-- C4: whenever `ftp.Dial` succeeded, the log of `ftpProtocol` ends with `Quit`,
whatever happens after the dial; whenever `ssh.Dial` succeeded, the log of
`sftpProtocol` ends with closing the SSH connection, and whenever
`sftp.NewClient` succeeded as well, it ends with closing the SFTP client and then
the SSH connection. -/
theorem sessions_closed_on_exit {σ : Type} (C : Collab σ) (config : Config) (w : σ) :
    ((C.call (ftpDialOp config) w).1 = none →
      ∃ pre q, (ftpProtocol C config w).log = pre ++ [⟨.ftpQuit, q⟩]) ∧
    ((C.call (sshDialOp config) w).1 = none →
      (∃ pre q, (sftpProtocol C config w).log = pre ++ [⟨.sshClose, q⟩]) ∧
      ((C.call .sftpNewClient (C.call (sshDialOp config) w).2).1 = none →
        ∃ pre q1 q2, (sftpProtocol C config w).log =
          pre ++ [⟨.sftpClientClose, q1⟩, ⟨.sshClose, q2⟩])) :=
  ⟨ftpProtocol_ends_with_quit C config w, sftpProtocol_ends_with_close C config w⟩

/-- C4 on runs that fail: at login, at creating the SFTP client, and in a job. -/
theorem sessions_closed_on_exit_witness :
    (∃ pre q, (ftpProtocol failLogin (sampleConfig "ftp") 0).log = pre ++ [⟨.ftpQuit, q⟩]) ∧
    (∃ pre q, (sftpProtocol failLogin (sampleConfig "sftp") 0).log =
      pre ++ [⟨.sshClose, q⟩]) ∧
    (∃ pre q1 q2, (sftpProtocol failDeleteB (sampleConfig "sftp") 0).log =
      pre ++ [⟨.sftpClientClose, q1⟩, ⟨.sshClose, q2⟩]) :=
  ⟨(sessions_closed_on_exit failLogin (sampleConfig "ftp") 0).1 (by decide),
   ((sessions_closed_on_exit failLogin (sampleConfig "sftp") 0).2 (by decide)).1,
   ((sessions_closed_on_exit failDeleteB (sampleConfig "sftp") 0).2 (by decide)).2
     (by decide)⟩

/-- C5 fails for `ftpProtocol`: on the sample configuration with every call
succeeding, the handler retrieves two files and opens one local file, returns no
error, and its log holds no close of any handle; the last call is `Quit`.  The
sibling `sftpProtocol` closes the six handles it opened. -/
theorem ftpProtocol_leaves_handles_open :
    (ftpProtocol allOk (sampleConfig "ftp") 0).err = none ∧
    (ftpProtocol allOk (sampleConfig "ftp") 0).log.map Event.op =
      [.print "Connecting to FTP server\n",
       .ftpDial "example.org:21" 5 ⟨"example.org", false, 0⟩,
       .ftpLogin "user" "secret",
       .ftpRetr "/srv/a.txt", .ioReadAll (.ftpResp 2), .osWriteFile "a.txt" [] 0o600,
       .ftpDelete "/srv/a.txt",
       .ftpRetr "/srv/b.txt", .ioReadAll (.ftpResp 6), .osWriteFile "b.txt" [] 0o600,
       .ftpDelete "/srv/b.txt",
       .osOpen "out.txt", .ftpStor "/srv/out.txt" (.osFile 10), .osRemove "out.txt",
       .ftpQuit] ∧
    (∀ x ∈ (ftpProtocol allOk (sampleConfig "ftp") 0).log, x.op.isFileClose = false) ∧
    ((sftpProtocol allOk (sampleConfig "sftp") 0).log.map Event.op).filter Op.isFileClose =
      [.fileClose (.sftpFile 11), .fileClose (.osFile 10), .fileClose (.osFile 7),
       .fileClose (.sftpFile 6), .fileClose (.osFile 3), .fileClose (.sftpFile 2)] := by
  decide

/-! ## The unused `IgnoreHostKey` field -/

/-- C10: changing only `IgnoreHostKey` changes nothing: the dial calls (address,
timeout, TLS settings, SSH client configuration with its host-key callback) are
the same, and for the same collaborator and world `ftpProtocol`, `sftpProtocol`
and `selectProtocol` produce the same result, log and final world. -/
theorem ignoreHostKey_has_no_effect {σ : Type} (C : Collab σ) (config : Config) (b : Bool)
    (w : σ) :
    ftpDialOp { config with IgnoreHostKey := b } = ftpDialOp config ∧
    sshDialOp { config with IgnoreHostKey := b } = sshDialOp config ∧
    sshConfig { config with IgnoreHostKey := b } = ⟨config.User, config.Password,
      .insecureIgnoreHostKey⟩ ∧
    ftpProtocol C { config with IgnoreHostKey := b } w = ftpProtocol C config w ∧
    sftpProtocol C { config with IgnoreHostKey := b } w = sftpProtocol C config w ∧
    selectProtocol C { config with IgnoreHostKey := b } w = selectProtocol C config w :=
  ⟨rfl, rfl, rfl, rfl, rfl, rfl⟩

/-! ## Deletion after the transfer -/

/-- C8 fails as stated: on the sample configuration, a run in which the server
refuses to open the second file and a run in which it refuses to delete it fail
at different steps (open remote, delete remote) of the same download job and
return the same error value, in `ftpProtocol` and in `sftpProtocol`. -/
theorem error_value_does_not_name_step :
    (firstFailure (ftpProtocol failOpenB (sampleConfig "ftp") 0).log =
        some ⟨.ftpRetr "/srv/b.txt", some "550 denied"⟩ ∧
      firstFailure (ftpProtocol failDeleteB (sampleConfig "ftp") 0).log =
        some ⟨.ftpDelete "/srv/b.txt", some "550 denied"⟩ ∧
      (ftpProtocol failOpenB (sampleConfig "ftp") 0).err =
        (ftpProtocol failDeleteB (sampleConfig "ftp") 0).err) ∧
    (firstFailure (sftpProtocol failOpenB (sampleConfig "sftp") 0).log =
        some ⟨.sftpOpen "/srv/b.txt", some "550 denied"⟩ ∧
      firstFailure (sftpProtocol failDeleteB (sampleConfig "sftp") 0).log =
        some ⟨.sftpRemove "/srv/b.txt", some "550 denied"⟩ ∧
      (sftpProtocol failOpenB (sampleConfig "sftp") 0).err =
        (sftpProtocol failDeleteB (sampleConfig "sftp") 0).err) ∧
    (Op.ftpRetr "/srv/b.txt").downloadStep ≠ (Op.ftpDelete "/srv/b.txt").downloadStep ∧
    (Op.sftpOpen "/srv/b.txt").downloadStep ≠ (Op.sftpRemove "/srv/b.txt").downloadStep := by
  decide

/-- C8 as amended: when download job `N` fails with `e`, either handler returns
exactly `e`, the error of the first failing call, which is a step of a download
job (open/retrieve remote, create/write local, copy/read, delete remote);
`ftpProtocol` prints nothing but its connecting line, while `sftpProtocol` prints
exactly one line, the message of that step with `e` in it, and the messages of
different steps differ whatever the errors are. -/
theorem download_failure_reported {σ : Type} (C : Collab σ) (config : Config) (w : σ)
    (N : Nat) (e : Err) :
    (FtpFailsInDownload C config w N e →
      (ftpProtocol C config w).err = some e ∧
      ∃ op k, firstFailure (ftpProtocol C config w).log = some ⟨op, some e⟩ ∧
        op.downloadStep = some k ∧
        printed (ftpProtocol C config w).log = ["Connecting to FTP server\n"]) ∧
    (SftpFailsInDownload C config w N e →
      (sftpProtocol C config w).err = some e ∧
      ∃ op k, firstFailure (sftpProtocol C config w).log = some ⟨op, some e⟩ ∧
        op.downloadStep = some k ∧
        printed (sftpProtocol C config w).log = [sftpDownloadMsg k e]) ∧
    (∀ k1 k2 e1 e2, sftpDownloadMsg k1 e1 = sftpDownloadMsg k2 e2 → k1 = k2) := by
  refine ⟨?_, ?_, sftpDownloadMsg_names_step⟩
  · rintro ⟨h0, h1, j, hj, hf⟩
    rw [Res.err_eq_none_iff] at h0 h1
    rw [Res.err_eq_some_iff] at hf ⊢
    have hc := ftpConnect_ok C config w h0
    refine ⟨(stopsAt_of_fail C (ftpConnect C config)
      (runJobs (ftpUpload C) config.FilesToUpload) (ftpDownload C) config.FilesToDownload
      w N j e (ftpDownload_laws C) (by rw [hc.2]; simp) (by rw [hc.1]; simp [Op.isClose])
      h0 h1 hj hf).1, ?_⟩
    obtain ⟨op, k, h3, h4, h5⟩ := report_of_fail C (ftpConnect C config)
      (runJobs (ftpUpload C) config.FilesToUpload) (ftpDownload C) config.FilesToDownload
      w N j e (fun _ _ => []) (ftpDownload_laws C) (ftpDownload_report C)
      (by rw [hc.2]; simp) (by rw [hc.1]; simp [Op.isClose]) h0 h1 hj hf
    refine ⟨op, k, h3, h4, ?_⟩
    rw [show ftpProtocol C config w = finish C (step (ftpConnect C config)
      (fun _ => step (runJobs (ftpDownload C) config.FilesToDownload)
        (fun _ => runJobs (ftpUpload C) config.FilesToUpload)) w) from rfl, h5, hc.2]
    simp [printed, ftpDialOp]
  · rintro ⟨h0, h1, j, hj, hf⟩
    rw [Res.err_eq_none_iff] at h0 h1
    rw [Res.err_eq_some_iff] at hf ⊢
    have hc := sftpConnect_ok C config w h0
    refine ⟨(stopsAt_of_fail C (sftpConnect C config)
      (runJobs (sftpUpload C) config.FilesToUpload) (sftpDownload C) config.FilesToDownload
      w N j e (sftpDownload_laws C) (by rw [hc.2]; simp) (by rw [hc.1]; simp [Op.isClose])
      h0 h1 hj hf).1, ?_⟩
    obtain ⟨op, k, h3, h4, h5⟩ := report_of_fail C (sftpConnect C config)
      (runJobs (sftpUpload C) config.FilesToUpload) (sftpDownload C) config.FilesToDownload
      w N j e (fun k e => [sftpDownloadMsg k e]) (sftpDownload_laws C) (sftpDownload_report C)
      (by rw [hc.2]; simp) (by rw [hc.1]; simp [Op.isClose]) h0 h1 hj hf
    refine ⟨op, k, h3, h4, ?_⟩
    rw [show sftpProtocol C config w = finish C (step (sftpConnect C config)
      (fun _ => step (runJobs (sftpDownload C) config.FilesToDownload)
        (fun _ => runJobs (sftpUpload C) config.FilesToUpload)) w) from rfl, h5, hc.2]
    simp [printed, sshDialOp]

/-- C8 as amended, when the server refuses to delete the second downloaded file. -/
theorem download_failure_reported_witness :
    (ftpProtocol failDeleteB (sampleConfig "ftp") 0).err = some "550 denied" ∧
    (∃ op k, firstFailure (sftpProtocol failDeleteB (sampleConfig "sftp") 0).log =
        some ⟨op, some "550 denied"⟩ ∧ op.downloadStep = some k ∧
      printed (sftpProtocol failDeleteB (sampleConfig "sftp") 0).log =
        [sftpDownloadMsg k "550 denied"]) :=
  ⟨((download_failure_reported failDeleteB (sampleConfig "ftp") 0 1 "550 denied").1
      ⟨by decide, by decide, ⟨"b.txt", "/srv/b.txt", true⟩, by decide, by decide⟩).1,
   ((download_failure_reported failDeleteB (sampleConfig "sftp") 0 1 "550 denied").2.1
      ⟨by decide, by decide, ⟨"b.txt", "/srv/b.txt", true⟩, by decide, by decide⟩).2⟩

/-! ## Download with deletion, and the round trip, over the stores -/

/-- C6 fails as stated: each of three configurations holds a download job with
`deleteRemoteFileAfterDownload = true` from `/srv/a.txt` to `a.txt`, and its run
returns no error.  In the first an upload job stores to `/srv/a.txt`, which
therefore exists after the run; in the second a later download job writes
`a.txt`, which ends up with the bytes of another remote file; in the third an
upload job removes `a.txt` after uploading it. -/
theorem download_delete_counterexample :
    (⟨"a.txt", "/srv/a.txt", true⟩ ∈ (reuploadConfig "ftp").FilesToDownload ∧
      (ftpProtocol storeCollab (reuploadConfig "ftp") sampleStores).err = none ∧
      (ftpProtocol storeCollab (reuploadConfig "ftp") sampleStores).world.remote "/srv/a.txt"
        = some [5, 6] ∧
      (sftpProtocol storeCollab (reuploadConfig "sftp") sampleStores).err = none ∧
      (sftpProtocol storeCollab (reuploadConfig "sftp") sampleStores).world.remote "/srv/a.txt"
        = some [5, 6]) ∧
    (⟨"a.txt", "/srv/a.txt", true⟩ ∈ (overwriteConfig "ftp").FilesToDownload ∧
      sampleStores.remote "/srv/a.txt" = some [1, 2, 3] ∧
      (ftpProtocol storeCollab (overwriteConfig "ftp") sampleStores).err = none ∧
      (ftpProtocol storeCollab (overwriteConfig "ftp") sampleStores).world.disk "a.txt"
        = some [4] ∧
      (sftpProtocol storeCollab (overwriteConfig "sftp") sampleStores).err = none ∧
      (sftpProtocol storeCollab (overwriteConfig "sftp") sampleStores).world.disk "a.txt"
        = some [4]) ∧
    (⟨"a.txt", "/srv/a.txt", true⟩ ∈ (forwardConfig "ftp").FilesToDownload ∧
      (ftpProtocol storeCollab (forwardConfig "ftp") sampleStores).err = none ∧
      (ftpProtocol storeCollab (forwardConfig "ftp") sampleStores).world.disk "a.txt" = none ∧
      (sftpProtocol storeCollab (forwardConfig "sftp") sampleStores).err = none ∧
      (sftpProtocol storeCollab (forwardConfig "sftp") sampleStores).world.disk "a.txt"
        = none) := by
  decide

/-- C6 as amended: let `j` be a download job of the configuration with
`deleteRemoteFileAfterDownload = true` such that no later download job has its
local path, no upload job has its remote path as remote path, and no upload job
with `deleteLocalFileAfterUpload = true` has its local path as local path.  Then
after a run of either handler that returns no error, `j.RemotePath` does not
exist in the remote store and the local store holds at `j.LocalPath` the bytes
the remote file had before the run (and that file existed). -/
theorem download_delete_moves_file (config : Config) (s : Stores)
    (before after : List DownloadJob) (j : DownloadJob)
    (hsplit : config.FilesToDownload = before ++ j :: after)
    (hflag : j.DeleteRemoteFileAfterDownload = true)
    (hafter : ∀ d ∈ after, d.LocalPath ≠ j.LocalPath)
    (hup1 : ∀ u ∈ config.FilesToUpload, u.RemotePath ≠ j.RemotePath)
    (hup2 : ∀ u ∈ config.FilesToUpload,
      u.DeleteLocalFileAfterUpload = true → u.LocalPath ≠ j.LocalPath) :
    ((ftpProtocol storeCollab config s).err = none →
      (ftpProtocol storeCollab config s).world.remote j.RemotePath = none ∧
      (ftpProtocol storeCollab config s).world.disk j.LocalPath = s.remote j.RemotePath ∧
      (s.remote j.RemotePath).isSome = true) ∧
    ((sftpProtocol storeCollab config s).err = none →
      (sftpProtocol storeCollab config s).world.remote j.RemotePath = none ∧
      (sftpProtocol storeCollab config s).world.disk j.LocalPath = s.remote j.RemotePath ∧
      (s.remote j.RemotePath).isSome = true) := by
  constructor
  · intro h
    rw [Res.err_eq_none_iff] at h
    exact handler_download_delete (ftpConnect storeCollab config) (ftpDownload storeCollab)
      (ftpUpload storeCollab) config.FilesToDownload config.FilesToUpload s before after j
      ftpDownload_effect ftpUpload_effect (ftpConnect_store config s)
      (ftpConnect_ops storeCollab config s).2 (ftpDownload_laws storeCollab).defers_close
      (ftpUpload_laws storeCollab).defers_close hsplit hflag hafter hup1 hup2 h
  · intro h
    rw [Res.err_eq_none_iff] at h
    exact handler_download_delete (sftpConnect storeCollab config) (sftpDownload storeCollab)
      (sftpUpload storeCollab) config.FilesToDownload config.FilesToUpload s before after j
      sftpDownload_effect sftpUpload_effect (sftpConnect_store config s)
      (sftpConnect_ops storeCollab config s).2 (sftpDownload_laws storeCollab).defers_close
      (sftpUpload_laws storeCollab).defers_close hsplit hflag hafter hup1 hup2 h

/-- C6 as amended, for the first download job of the sample configuration. -/
theorem download_delete_moves_file_witness :
    ((ftpProtocol storeCollab (sampleConfig "ftp") sampleStores).world.remote "/srv/a.txt"
        = none ∧
      (ftpProtocol storeCollab (sampleConfig "ftp") sampleStores).world.disk "a.txt"
        = sampleStores.remote "/srv/a.txt" ∧
      (sampleStores.remote "/srv/a.txt").isSome = true) ∧
    ((sftpProtocol storeCollab (sampleConfig "sftp") sampleStores).world.remote "/srv/a.txt"
        = none ∧
      (sftpProtocol storeCollab (sampleConfig "sftp") sampleStores).world.disk "a.txt"
        = sampleStores.remote "/srv/a.txt" ∧
      (sampleStores.remote "/srv/a.txt").isSome = true) :=
  ⟨(download_delete_moves_file (sampleConfig "ftp") sampleStores []
      [⟨"b.txt", "/srv/b.txt", true⟩] ⟨"a.txt", "/srv/a.txt", true⟩ (by decide) (by decide)
      (by decide) (by decide) (by decide)).1 (by decide),
   (download_delete_moves_file (sampleConfig "sftp") sampleStores []
      [⟨"b.txt", "/srv/b.txt", true⟩] ⟨"a.txt", "/srv/a.txt", true⟩ (by decide) (by decide)
      (by decide) (by decide) (by decide)).2 (by decide)⟩

/-- C7: with either handler, after a run returning no error whose only job
uploads local `L` to remote `R` without deletion, followed from the stores it
left by a run returning no error whose only job downloads `R` to `L2`, the local
store holds at `L2` the bytes `L` held before the first run (whether or not `L2`
differs from `L`, and whether or not the download deletes `R`). -/
theorem upload_download_round_trip (c1 c2 : Config) (s : Stores) (L R L2 : String)
    (delete : Bool)
    (h1d : c1.FilesToDownload = []) (h1u : c1.FilesToUpload = [⟨L, R, false⟩])
    (h2d : c2.FilesToDownload = [⟨L2, R, delete⟩]) (h2u : c2.FilesToUpload = []) :
    ((ftpProtocol storeCollab c1 s).err = none →
      (ftpProtocol storeCollab c2 (ftpProtocol storeCollab c1 s).world).err = none →
      (ftpProtocol storeCollab c2 (ftpProtocol storeCollab c1 s).world).world.disk L2
        = s.disk L ∧ (s.disk L).isSome = true) ∧
    ((sftpProtocol storeCollab c1 s).err = none →
      (sftpProtocol storeCollab c2 (sftpProtocol storeCollab c1 s).world).err = none →
      (sftpProtocol storeCollab c2 (sftpProtocol storeCollab c1 s).world).world.disk L2
        = s.disk L ∧ (s.disk L).isSome = true) := by
  constructor
  · intro h1 h2
    rw [Res.err_eq_none_iff] at h1 h2
    unfold ftpProtocol ftpBody ftpJobs at h1 h2 ⊢
    rw [h1d, h1u] at h1 h2 ⊢
    rw [h2d, h2u] at h2 ⊢
    exact handler_round_trip (ftpConnect storeCollab c1) (ftpConnect storeCollab c2)
      (ftpDownload storeCollab) (ftpUpload storeCollab) s L R L2 delete
      ftpDownload_effect ftpUpload_effect (ftpConnect_store c1) (ftpConnect_store c2)
      (fun s => (ftpConnect_ops storeCollab c1 s).2) (fun s => (ftpConnect_ops storeCollab c2 s).2)
      (ftpDownload_laws storeCollab).defers_close (ftpUpload_laws storeCollab).defers_close h1 h2
  · intro h1 h2
    rw [Res.err_eq_none_iff] at h1 h2
    unfold sftpProtocol sftpBody sftpJobs at h1 h2 ⊢
    rw [h1d, h1u] at h1 h2 ⊢
    rw [h2d, h2u] at h2 ⊢
    exact handler_round_trip (sftpConnect storeCollab c1) (sftpConnect storeCollab c2)
      (sftpDownload storeCollab) (sftpUpload storeCollab) s L R L2 delete
      sftpDownload_effect sftpUpload_effect (sftpConnect_store c1) (sftpConnect_store c2)
      (fun s => (sftpConnect_ops storeCollab c1 s).2)
      (fun s => (sftpConnect_ops storeCollab c2 s).2)
      (sftpDownload_laws storeCollab).defers_close (sftpUpload_laws storeCollab).defers_close
      h1 h2

/-- C7 on the sample stores: `out.txt` is uploaded to `/srv/new.txt` and comes
back as `back.txt`. -/
theorem upload_download_round_trip_witness :
    (ftpProtocol storeCollab (downloadOnly "ftp" "back.txt" "/srv/new.txt" false)
      (ftpProtocol storeCollab (uploadOnly "ftp" "out.txt" "/srv/new.txt")
        sampleStores).world).world.disk "back.txt" = sampleStores.disk "out.txt" ∧
    (sftpProtocol storeCollab (downloadOnly "sftp" "back.txt" "/srv/new.txt" true)
      (sftpProtocol storeCollab (uploadOnly "sftp" "out.txt" "/srv/new.txt")
        sampleStores).world).world.disk "back.txt" = sampleStores.disk "out.txt" :=
  ⟨((upload_download_round_trip (uploadOnly "ftp" "out.txt" "/srv/new.txt")
      (downloadOnly "ftp" "back.txt" "/srv/new.txt" false) sampleStores
      "out.txt" "/srv/new.txt" "back.txt" false rfl rfl rfl rfl).1
      (by decide) (by decide)).1,
   ((upload_download_round_trip (uploadOnly "sftp" "out.txt" "/srv/new.txt")
      (downloadOnly "sftp" "back.txt" "/srv/new.txt" true) sampleStores
      "out.txt" "/srv/new.txt" "back.txt" true rfl rfl rfl rfl).2
      (by decide) (by decide)).1⟩

end FTPgo
